import Mathlib

/-!
Verification of the `crb` Chrome-bookmark codec and carver.

This file shallowly embeds the Go sources (`bookmark_codec.go`, the carver
file, and the value encodings they use) as executable Lean definitions:
Go strings become Lean `String` (sequences of Unicode scalar values) or
`List Nat` byte lists, machine integers become `Int`/`Nat` with explicit
`% 2^w` where overflow matters, fallible operations return `Except`/`Option`,
and the standard-library pieces the code relies on (MD5, JSON, base64,
decimal formatting) are implemented here from their specifications so the
embedding stays closed and computable.
-/

set_option maxRecDepth 100000

namespace crb

/-! ## Byte-level primitive encodings -/

/-- Decimal digits of a natural number, least significant first (`0 ↦ []`);
fuel-structural so it evaluates by kernel reduction (`fuel ≥ n` suffices). -/
def natDigitsRevAux : Nat → Nat → List Nat
  | 0, _ => []
  | fuel + 1, n => if n = 0 then [] else (n % 10) :: natDigitsRevAux fuel (n / 10)

/-- Decimal digits of a natural number, least significant first (`0 ↦ []`). -/
def natDigitsRev (n : Nat) : List Nat := natDigitsRevAux n n

/-- ASCII bytes of the decimal representation of a natural number. -/
def natDecBytes (n : Nat) : List Nat :=
  if n = 0 then [48] else ((natDigitsRev n).reverse).map (· + 48)

/-- ASCII bytes of `strconv.Itoa`/`strconv.FormatInt` for an integer. -/
def itoa (i : Int) : List Nat :=
  if i < 0 then 45 :: natDecBytes i.natAbs else natDecBytes i.toNat

/-- UTF-16 code units for one Unicode scalar value (`unicode/utf16.Encode`
for a single valid rune). -/
def charUTF16 (c : Char) : List Nat :=
  let v := c.toNat
  if v < 65536 then [v]
  else [55296 + (v - 65536) / 1024, 56320 + (v - 65536) % 1024]

/-- The `u16string` helper from `bookmark_codec.go`: the string's UTF-16
code units serialized little-endian, two bytes per code unit. -/
def u16string (s : String) : List Nat :=
  ((s.data.map charUTF16).flatten.map (fun r => [r % 256, (r / 256) % 256])).flatten

/-- UTF-8 bytes of one Unicode scalar value. -/
def charUTF8 (c : Char) : List Nat :=
  let v := c.toNat
  if v < 128 then [v]
  else if v < 2048 then [192 + v / 64, 128 + v % 64]
  else if v < 65536 then [224 + v / 4096, 128 + (v / 64) % 64, 128 + v % 64]
  else [240 + v / 262144, 128 + (v / 4096) % 64, 128 + (v / 64) % 64, 128 + v % 64]

/-- UTF-8 bytes of a string (Go's `[]byte(s)` for a valid string). -/
def utf8Bytes (s : String) : List Nat :=
  (s.data.map charUTF8).flatten

/-! ## MD5 (RFC 1321), as used by `crypto/md5` -/

def u32 : Nat := 4294967296

def add32 (a b : Nat) : Nat := (a + b) % u32

def rotl32 (x s : Nat) : Nat := (x * 2 ^ s + x / 2 ^ (32 - s)) % u32

def not32 (x : Nat) : Nat := x ^^^ 4294967295

/-- The 64 sine-derived MD5 round constants. -/
def md5K : List Nat :=
  [0xd76aa478, 0xe8c7b756, 0x242070db, 0xc1bdceee,
   0xf57c0faf, 0x4787c62a, 0xa8304613, 0xfd469501,
   0x698098d8, 0x8b44f7af, 0xffff5bb1, 0x895cd7be,
   0x6b901122, 0xfd987193, 0xa679438e, 0x49b40821,
   0xf61e2562, 0xc040b340, 0x265e5a51, 0xe9b6c7aa,
   0xd62f105d, 0x02441453, 0xd8a1e681, 0xe7d3fbc8,
   0x21e1cde6, 0xc33707d6, 0xf4d50d87, 0x455a14ed,
   0xa9e3e905, 0xfcefa3f8, 0x676f02d9, 0x8d2a4c8a,
   0xfffa3942, 0x8771f681, 0x6d9d6122, 0xfde5380c,
   0xa4beea44, 0x4bdecfa9, 0xf6bb4b60, 0xbebfbc70,
   0x289b7ec6, 0xeaa127fa, 0xd4ef3085, 0x04881d05,
   0xd9d4d039, 0xe6db99e5, 0x1fa27cf8, 0xc4ac5665,
   0xf4292244, 0x432aff97, 0xab9423a7, 0xfc93a039,
   0x655b59c3, 0x8f0ccc92, 0xffeff47d, 0x85845dd1,
   0x6fa87e4f, 0xfe2ce6e0, 0xa3014314, 0x4e0811a1,
   0xf7537e82, 0xbd3af235, 0x2ad7d2bb, 0xeb86d391]

/-- Per-step left-rotation amounts. -/
def md5S : List Nat :=
  [7, 12, 17, 22, 7, 12, 17, 22, 7, 12, 17, 22, 7, 12, 17, 22,
   5, 9, 14, 20, 5, 9, 14, 20, 5, 9, 14, 20, 5, 9, 14, 20,
   4, 11, 16, 23, 4, 11, 16, 23, 4, 11, 16, 23, 4, 11, 16, 23,
   6, 10, 15, 21, 6, 10, 15, 21, 6, 10, 15, 21, 6, 10, 15, 21]

/-- One MD5 step applied to state `(a, b, c, d)` with message words `M`. -/
def md5Step (M : List Nat) (st : Nat × Nat × Nat × Nat) (i : Nat) :
    Nat × Nat × Nat × Nat :=
  let a := st.1
  let b := st.2.1
  let c := st.2.2.1
  let d := st.2.2.2
  let f :=
    if i < 16 then (b &&& c) ||| (not32 b &&& d)
    else if i < 32 then (d &&& b) ||| (not32 d &&& c)
    else if i < 48 then b ^^^ c ^^^ d
    else c ^^^ (b ||| not32 d)
  let g :=
    if i < 16 then i
    else if i < 32 then (5 * i + 1) % 16
    else if i < 48 then (3 * i + 5) % 16
    else (7 * i) % 16
  let t := add32 (add32 (add32 a f) (md5K.getD i 0)) (M.getD g 0)
  let a' := add32 b (rotl32 t (md5S.getD i 0))
  (d, a', b, c)

/-- Process one 16-word block, updating the running state. -/
def md5Block (st : Nat × Nat × Nat × Nat) (M : List Nat) : Nat × Nat × Nat × Nat :=
  let r := (List.range 64).foldl (md5Step M) st
  (add32 st.1 r.1, add32 st.2.1 r.2.1, add32 st.2.2.1 r.2.2.1, add32 st.2.2.2 r.2.2.2)

/-- Split a byte list into 64-byte blocks (fuel-structural; fuel bounds the
number of blocks, `l.length` suffices). -/
def toBlocksAux : Nat → List Nat → List (List Nat)
  | 0, _ => []
  | fuel + 1, l => if l = [] then [] else l.take 64 :: toBlocksAux fuel (l.drop 64)

/-- Split a byte list into 64-byte blocks. -/
def toBlocks (l : List Nat) : List (List Nat) := toBlocksAux l.length l

/-- Group bytes into little-endian 32-bit words. -/
def toWords : List Nat → List Nat
  | b0 :: b1 :: b2 :: b3 :: rest =>
      (b0 + 256 * b1 + 65536 * b2 + 16777216 * b3) :: toWords rest
  | _ => []

/-- Little-endian bytes of a 32-bit word. -/
def wordBytes (w : Nat) : List Nat :=
  [w % 256, w / 256 % 256, w / 65536 % 256, w / 16777216 % 256]

/-- MD5 padding: `0x80`, zeros to 56 mod 64, then the bit length as a
little-endian 64-bit integer. -/
def md5Pad (msg : List Nat) : List Nat :=
  let padLen := (119 - msg.length % 64) % 64
  msg ++ [128] ++ List.replicate padLen 0 ++
    (wordBytes ((msg.length * 8) % u32) ++ wordBytes ((msg.length * 8) / u32 % u32))

/-- The 16-byte MD5 digest of a byte list. -/
def md5 (msg : List Nat) : List Nat :=
  let blocks := (toBlocks (md5Pad msg)).map toWords
  let st := blocks.foldl md5Block (0x67452301, 0xefcdab89, 0x98badcfe, 0x10325476)
  wordBytes st.1 ++ wordBytes st.2.1 ++ wordBytes st.2.2.1 ++ wordBytes st.2.2.2

/-- One lowercase hex digit. -/
def hexChar (n : Nat) : Char :=
  if n < 10 then Char.ofNat (48 + n) else Char.ofNat (87 + n)

/-- `encoding/hex.EncodeToString`: lowercase hex of a byte list. -/
def hexEncode (bs : List Nat) : String :=
  String.mk ((bs.map (fun b => [hexChar (b / 16 % 16), hexChar (b % 16)])).flatten)

/-! ## Data model (`Bookmarks`, `BookmarkNode`) -/

/-- The scalar fields of a `BookmarkNode` (the struct from
`bookmark_codec.go`, minus the recursive `Children` pointer). Go `string`
becomes `String`, `Time` and `int` become `Int`, maps become association
lists. -/
structure NodeData where
  dateAdded : Int
  dateLastUsed : Int
  dateModified : Int
  guid : String
  id : Int
  name : String
  showIcon : Bool
  source : String
  type : String
  url : String
  metaInfo : List (String × String)
  unsyncedMetaInfo : List (String × String)
deriving DecidableEq

/-- A bookmark tree node; `children` models the `*[]BookmarkNode` pointer
(absent pointer = `none`). -/
inductive BookmarkNode where
  | mk (children : Option (List BookmarkNode)) (data : NodeData)

mutual

def nodeDecEq : (a b : BookmarkNode) → Decidable (a = b)
  | .mk c1 d1, .mk c2 d2 =>
    match nodeOptDecEq c1 c2 with
    | isTrue hc =>
      match (inferInstance : DecidableEq NodeData) d1 d2 with
      | isTrue hd => isTrue (by rw [hc, hd])
      | isFalse hd => isFalse (by intro h; cases h; exact hd rfl)
    | isFalse hc => isFalse (by intro h; cases h; exact hc rfl)

def nodeListDecEq : (a b : List BookmarkNode) → Decidable (a = b)
  | [], [] => isTrue rfl
  | [], _ :: _ => isFalse (by intro h; cases h)
  | _ :: _, [] => isFalse (by intro h; cases h)
  | x :: xs, y :: ys =>
    match nodeDecEq x y with
    | isTrue hx =>
      match nodeListDecEq xs ys with
      | isTrue hxs => isTrue (by rw [hx, hxs])
      | isFalse hxs => isFalse (by intro h; cases h; exact hxs rfl)
    | isFalse hx => isFalse (by intro h; cases h; exact hx rfl)

def nodeOptDecEq : (a b : Option (List BookmarkNode)) → Decidable (a = b)
  | none, none => isTrue rfl
  | none, some _ => isFalse (by intro h; cases h)
  | some _, none => isFalse (by intro h; cases h)
  | some xs, some ys =>
    match nodeListDecEq xs ys with
    | isTrue hxs => isTrue (by rw [hxs])
    | isFalse hxs => isFalse (by intro h; cases h; exact hxs rfl)

end

instance : DecidableEq BookmarkNode := nodeDecEq

def exceptDecEq {ε α : Type} [DecidableEq ε] [DecidableEq α] :
    (a b : Except ε α) → Decidable (a = b)
  | .ok x, .ok y =>
    match decEq x y with
    | isTrue h => isTrue (by rw [h])
    | isFalse h => isFalse (by intro hh; cases hh; exact h rfl)
  | .error x, .error y =>
    match decEq x y with
    | isTrue h => isTrue (by rw [h])
    | isFalse h => isFalse (by intro hh; cases hh; exact h rfl)
  | .ok _, .error _ => isFalse (by intro h; cases h)
  | .error _, .ok _ => isFalse (by intro h; cases h)

instance {ε α : Type} [DecidableEq ε] [DecidableEq α] : DecidableEq (Except ε α) :=
  exceptDecEq

def BookmarkNode.children : BookmarkNode → Option (List BookmarkNode)
  | .mk c _ => c

def BookmarkNode.data : BookmarkNode → NodeData
  | .mk _ d => d

/-- The three named roots of a bookmark document. -/
structure BookmarksRoots where
  bookmarkBar : BookmarkNode
  other : BookmarkNode
  mobileBookmark : BookmarkNode
deriving DecidableEq

/-- The decoded bookmark document (`Bookmarks` in `bookmark_codec.go`).
`syncMetadata` models the `Bytes` slice (`none` = nil slice). -/
structure Bookmarks where
  checksum : String
  roots : BookmarksRoots
  syncMetadata : Option (List Nat)
  version : Int
  metaInfo : List (String × String)
  unsyncedMetaInfo : List (String × String)
deriving DecidableEq

/-- A Go `error` value as observed by the walk/carve plumbing: the
distinguished `ErrBreak` sentinel or any other error. -/
inductive GoErr where
  | brk
  | fail (msg : String)
deriving DecidableEq

/-! ## walk

The Go `walk` takes an effectful callback returning `error`; we embed the
callback as a state transformer `σ → σ × Option GoErr` so a caller can
accumulate (exactly what the Go closures over `h`/counters do). -/

mutual

/-- `BookmarkNode.walk(fn, parents...)`: visit the node, then (for folder
nodes with a non-nil children pointer) its children, passing each child
`append(parents, c.Name)` as its context; stop on the first error. -/
def BookmarkNode.walkAux {σ : Type} (fn : BookmarkNode → List String → σ → σ × Option GoErr) :
    BookmarkNode → List String → σ → σ × Option GoErr
  | .mk children dt, parents, s =>
    match fn (.mk children dt) parents s with
    | (s1, some e) => (s1, some e)
    | (s1, none) =>
      if dt.type = "folder" then
        match children with
        | some cs => walkChildren fn cs parents s1
        | none => (s1, none)
      else (s1, none)

def walkChildren {σ : Type} (fn : BookmarkNode → List String → σ → σ × Option GoErr) :
    List BookmarkNode → List String → σ → σ × Option GoErr
  | [], _, s => (s, none)
  | c :: rest, parents, s =>
    match BookmarkNode.walkAux fn c (parents ++ [c.data.name]) s with
    | (s1, some e) => (s1, some e)
    | (s1, none) => walkChildren fn rest parents s1

end

/-- `Bookmarks.Walk`: walk the bookmark-bar root, then other, then synced,
swallowing the `ErrBreak` sentinel at this entry point. -/
def Bookmarks.Walk {σ : Type} (b : Bookmarks)
    (fn : BookmarkNode → List String → σ → σ × Option GoErr) (s : σ) :
    σ × Option GoErr :=
  match BookmarkNode.walkAux fn b.roots.bookmarkBar [] s with
  | (s1, some e) => (s1, if e = GoErr.brk then none else some e)
  | (s1, none) =>
    match BookmarkNode.walkAux fn b.roots.other [] s1 with
    | (s2, some e) => (s2, if e = GoErr.brk then none else some e)
    | (s2, none) =>
      match BookmarkNode.walkAux fn b.roots.mobileBookmark [] s2 with
      | (s3, some e) => (s3, if e = GoErr.brk then none else some e)
      | (s3, none) => (s3, none)

/-- `BookmarkNode.Walk` (exported node-level entry point): swallow
`ErrBreak`. -/
def BookmarkNode.Walk {σ : Type} (n : BookmarkNode)
    (fn : BookmarkNode → List String → σ → σ × Option GoErr) (s : σ) :
    σ × Option GoErr :=
  match BookmarkNode.walkAux fn n [] s with
  | (s1, some e) => (s1, if e = GoErr.brk then none else some e)
  | (s1, none) => (s1, none)

/-! ## CalculateChecksum -/

/-- The visitor closure inside `CalculateChecksum`: the bytes written into
the streaming MD5 state for one visited node. -/
def chkFn (n : BookmarkNode) (_ : List String) (acc : List Nat) :
    List Nat × Option GoErr :=
  if n.data.type = "url" then
    (acc ++ itoa n.data.id ++ u16string n.data.name ++ utf8Bytes n.data.type ++
      utf8Bytes n.data.url, none)
  else if n.data.type = "folder" then
    (acc ++ itoa n.data.id ++ u16string n.data.name ++ utf8Bytes n.data.type, none)
  else (acc, none)

/-- `Bookmarks.CalculateChecksum`: lowercase hex MD5 digest of the bytes
streamed by walking the document with `chkFn`. -/
def Bookmarks.CalculateChecksum (b : Bookmarks) : String :=
  hexEncode (md5 (b.Walk chkFn []).1)

/-! ## Claim-side (spec-worded) traversal definitions -/

mutual

/-- Claim wording for C1/C6: the depth-first pre-order node sequence (a
node, then its children left to right). -/
def specPreorder : BookmarkNode → List BookmarkNode
  | .mk children dt =>
    .mk children dt ::
      (match children with
       | some cs => specPreorderList cs
       | none => [])

def specPreorderList : List BookmarkNode → List BookmarkNode
  | [] => []
  | c :: rest => specPreorder c ++ specPreorderList rest

end

/-- Claim wording for C1: one visited node's contribution to the checksum
stream — decimal id bytes, UTF-16LE name, the type tag literal, and (for
`"url"` nodes only) the URL's raw bytes. -/
def specNodeBytes (n : BookmarkNode) : List Nat :=
  itoa n.data.id ++ u16string n.data.name ++ utf8Bytes n.data.type ++
    (if n.data.type = "url" then utf8Bytes n.data.url else [])

/-- Claim wording for C1: the checksum as the lowercase hex MD5 digest of
the concatenated per-node contributions, over bookmark_bar then other then
synced, pre-order. -/
def specChecksum (b : Bookmarks) : String :=
  hexEncode (md5 (((specPreorder b.roots.bookmarkBar ++ specPreorder b.roots.other ++
    specPreorder b.roots.mobileBookmark).map specNodeBytes).flatten))

/-- Local well-formedness of one node: its type tag is `"url"` or
`"folder"`, and only folder nodes carry a children sequence (the
documented invariant of the data model). -/
def nodeOK (n : BookmarkNode) : Bool :=
  (n.data.type == "url" || n.data.type == "folder") &&
  (n.data.type == "folder" || n.children.isNone)

/-- Structural well-formedness of a whole subtree (hypothesis of C1). -/
def nodeWF (n : BookmarkNode) : Bool :=
  (specPreorder n).all nodeOK

/-- Structural well-formedness of a node list. -/
def nodeListWF (l : List BookmarkNode) : Bool :=
  (specPreorderList l).all nodeOK

/-- Well-formedness of a document's three roots. -/
def Bookmarks.WF (b : Bookmarks) : Bool :=
  nodeWF b.roots.bookmarkBar && nodeWF b.roots.other && nodeWF b.roots.mobileBookmark

mutual

/-- Claim wording for C6: pre-order visit sequence recording, for every
node, its name and the ordered sequence of its ancestors' names. -/
def specVisits (anc : List String) : BookmarkNode → List (String × List String)
  | .mk children dt =>
    (dt.name, anc) ::
      (match children with
       | some cs => specVisitsList (anc ++ [dt.name]) cs
       | none => [])

def specVisitsList (anc : List String) : List BookmarkNode → List (String × List String)
  | [] => []
  | c :: rest => specVisits anc c ++ specVisitsList anc rest

end

/-- A recording visitor: appends each visited node's name with the context
sequence the walk passed for it. -/
def traceFn (n : BookmarkNode) (parents : List String)
    (acc : List (String × List String)) :
    List (String × List String) × Option GoErr :=
  (acc ++ [(n.data.name, parents)], none)

/-- Claim wording for C6 at document level: ancestor-context visit
sequences of the three roots in order. -/
def specVisitsDoc (b : Bookmarks) : List (String × List String) :=
  specVisits [] b.roots.bookmarkBar ++ specVisits [] b.roots.other ++
    specVisits [] b.roots.mobileBookmark

/-! ## GUID -/

/-- The 256-entry hex-nibble lookup table `xv` (sentinel 255 = invalid). -/
def xv : List Nat :=
  [255, 255, 255, 255, 255, 255, 255, 255, 255, 255, 255, 255, 255, 255, 255, 255,
   255, 255, 255, 255, 255, 255, 255, 255, 255, 255, 255, 255, 255, 255, 255, 255,
   255, 255, 255, 255, 255, 255, 255, 255, 255, 255, 255, 255, 255, 255, 255, 255,
   0, 1, 2, 3, 4, 5, 6, 7, 8, 9, 255, 255, 255, 255, 255, 255,
   255, 10, 11, 12, 13, 14, 15, 255, 255, 255, 255, 255, 255, 255, 255, 255,
   255, 255, 255, 255, 255, 255, 255, 255, 255, 255, 255, 255, 255, 255, 255, 255,
   255, 10, 11, 12, 13, 14, 15, 255, 255, 255, 255, 255, 255, 255, 255, 255,
   255, 255, 255, 255, 255, 255, 255, 255, 255, 255, 255, 255, 255, 255, 255, 255,
   255, 255, 255, 255, 255, 255, 255, 255, 255, 255, 255, 255, 255, 255, 255, 255,
   255, 255, 255, 255, 255, 255, 255, 255, 255, 255, 255, 255, 255, 255, 255, 255,
   255, 255, 255, 255, 255, 255, 255, 255, 255, 255, 255, 255, 255, 255, 255, 255,
   255, 255, 255, 255, 255, 255, 255, 255, 255, 255, 255, 255, 255, 255, 255, 255,
   255, 255, 255, 255, 255, 255, 255, 255, 255, 255, 255, 255, 255, 255, 255, 255,
   255, 255, 255, 255, 255, 255, 255, 255, 255, 255, 255, 255, 255, 255, 255, 255,
   255, 255, 255, 255, 255, 255, 255, 255, 255, 255, 255, 255, 255, 255, 255, 255,
   255, 255, 255, 255, 255, 255, 255, 255, 255, 255, 255, 255, 255, 255, 255, 255]

/-- Table lookup (a byte index; out-of-range is impossible for Go bytes and
maps to the invalid sentinel here). -/
def xvAt (b : Nat) : Nat := xv.getD b 255

/-- `xtob`: decode two hex chars into one byte plus a validity flag. The
`% 256` models Go byte overflow of `b1 << 4` when `b1` is the sentinel. -/
def xtob (x1 x2 : Nat) : Nat × Bool :=
  let b1 := xvAt x1
  let b2 := xvAt x2
  ((b1 <<< 4) % 256 ||| b2, b1 != 255 && b2 != 255)

/-- The two GUID failure modes (`invalid guid format` / `invalid guid hex
char`). -/
inductive GuidErr where
  | format
  | hexchar
deriving DecidableEq

/-- The structural layout check at the top of `GUID.Bytes`: length 36 and
hyphens at byte positions 8, 13, 18 and 23. -/
def guidFormatOK (s : List Nat) : Bool :=
  s.length == 36 && s.getD 8 0 == 45 && s.getD 13 0 == 45 &&
    s.getD 18 0 == 45 && s.getD 23 0 == 45

/-- Start positions of the 16 hex-digit pairs inside a canonical GUID. -/
def guidHexPos : List Nat := [0, 2, 4, 6, 9, 11, 14, 16, 19, 21, 24, 26, 28, 30, 32, 34]

/-- The decoding loop of `GUID.Bytes`: fill `u[i]` for each pair, stopping
with the hex-char error (and `u` as filled so far) at the first bad pair. -/
def guidBytesLoop (s : List Nat) : List (Nat × Nat) → List Nat → List Nat × Option GuidErr
  | [], u => (u, none)
  | (i, x) :: rest, u =>
    let p := xtob (s.getD x 0) (s.getD (x + 1) 0)
    if p.2 then guidBytesLoop s rest (u.set i p.1)
    else (u, some GuidErr.hexchar)

/-- `GUID.Bytes` on the string's bytes: the 16 decoded bytes (zero-filled
past any failure point) and the error, if any. -/
def GUIDBytes (s : List Nat) : List Nat × Option GuidErr :=
  if guidFormatOK s then guidBytesLoop s guidHexPos.enum (List.replicate 16 0)
  else (List.replicate 16 0, some GuidErr.format)

/-- One byte as two lowercase ASCII hex bytes. -/
def hexByteLower (b : Nat) : List Nat :=
  [(if b / 16 % 16 < 10 then 48 + b / 16 % 16 else 87 + b / 16 % 16),
   (if b % 16 < 10 then 48 + b % 16 else 87 + b % 16)]

/-- Lowercase hex ASCII bytes of a byte list (`%x` on a Go byte slice). -/
def hexLowerBytes (bs : List Nat) : List Nat :=
  (bs.map hexByteLower).flatten

/-- `fmt.Sprintf("%x-%x-%x-%x-%x", u[0:4], u[4:6], u[6:8], u[8:10], u[10:])`:
the canonical hyphenated lowercase-hex rendering of 16 bytes. -/
def canonicalRender (u : List Nat) : List Nat :=
  hexLowerBytes (u.take 4) ++ [45] ++
    hexLowerBytes ((u.drop 4).take 2) ++ [45] ++
    hexLowerBytes ((u.drop 6).take 2) ++ [45] ++
    hexLowerBytes ((u.drop 8).take 2) ++ [45] ++
    hexLowerBytes (u.drop 10)

/-- `GUID.Canonical`: render the (possibly partially) decoded bytes in the
hyphenated canonical form, passing the decode error through. -/
def GUIDCanonical (s : List Nat) : List Nat × Option GuidErr :=
  (canonicalRender (GUIDBytes s).1, (GUIDBytes s).2)

/-- All sixteen hex pairs of a (format-valid) GUID decode successfully. -/
def guidAll16 (s : List Nat) : Bool :=
  guidHexPos.all (fun x => (xtob (s.getD x 0) (s.getD (x + 1) 0)).2)

/-- `GUID.String`: the canonical form with the error discarded. -/
def GUIDString (s : List Nat) : List Nat :=
  (GUIDCanonical s).1

/-- `GUID.Valid` as a boolean: `Bytes` reports no error. -/
def GUIDValid (s : List Nat) : Bool :=
  ((GUIDBytes s).2).isNone

/-- ASCII lowercasing of one byte (the claim's `lowercase`). -/
def lowerByte (c : Nat) : Nat :=
  if 65 ≤ c ∧ c ≤ 90 then c + 32 else c

/-- ASCII lowercasing of a byte string. -/
def lowerBytes (s : List Nat) : List Nat :=
  s.map lowerByte

/-- Claim wording for C10: the partially decoded value — pairs decoded
left to right up to (excluding) the first invalid pair, zeros from there. -/
def specPartialDecodeAux (s : List Nat) : List Nat → List Nat
  | [] => []
  | x :: rest =>
    if (xtob (s.getD x 0) (s.getD (x + 1) 0)).2 then
      (xtob (s.getD x 0) (s.getD (x + 1) 0)).1 :: specPartialDecodeAux s rest
    else List.replicate (x :: rest).length 0

/-- The claim-worded partial decode over the sixteen canonical pair
positions. -/
def specPartialDecode (s : List Nat) : List Nat :=
  specPartialDecodeAux s guidHexPos

/-- The ASCII bytes of `"00000000-0000-0000-0000-000000000000"`. -/
def zeroGuidBytes : List Nat :=
  List.replicate 8 48 ++ [45] ++ List.replicate 4 48 ++ [45] ++
    List.replicate 4 48 ++ [45] ++ List.replicate 4 48 ++ [45] ++
    List.replicate 12 48

/-! ## JSON (the fragment of `encoding/json` the codec relies on)

JSON values are modelled as a tree; the byte-level parser below implements
the JSON grammar as `encoding/json` accepts it (whitespace, literals,
number tokens, strings with escapes and UTF-8 decoding, arrays, objects).
Number tokens are kept as their source text, as the decoder does before a
field type forces an interpretation. -/

inductive JValue where
  | null
  | bool (b : Bool)
  | num (tok : String)
  | str (s : String)
  | arr (xs : List JValue)
  | obj (fields : List (String × JValue))

mutual

def jvalDecEq : (a b : JValue) → Decidable (a = b)
  | .null, .null => isTrue rfl
  | .bool x, .bool y =>
    match decEq x y with
    | isTrue h => isTrue (by rw [h])
    | isFalse h => isFalse (by intro hh; cases hh; exact h rfl)
  | .num x, .num y =>
    match decEq x y with
    | isTrue h => isTrue (by rw [h])
    | isFalse h => isFalse (by intro hh; cases hh; exact h rfl)
  | .str x, .str y =>
    match decEq x y with
    | isTrue h => isTrue (by rw [h])
    | isFalse h => isFalse (by intro hh; cases hh; exact h rfl)
  | .arr xs, .arr ys =>
    match jvalListDecEq xs ys with
    | isTrue h => isTrue (by rw [h])
    | isFalse h => isFalse (by intro hh; cases hh; exact h rfl)
  | .obj xs, .obj ys =>
    match jvalFieldsDecEq xs ys with
    | isTrue h => isTrue (by rw [h])
    | isFalse h => isFalse (by intro hh; cases hh; exact h rfl)
  | .null, .bool _ => isFalse (by intro h; cases h)
  | .null, .num _ => isFalse (by intro h; cases h)
  | .null, .str _ => isFalse (by intro h; cases h)
  | .null, .arr _ => isFalse (by intro h; cases h)
  | .null, .obj _ => isFalse (by intro h; cases h)
  | .bool _, .null => isFalse (by intro h; cases h)
  | .bool _, .num _ => isFalse (by intro h; cases h)
  | .bool _, .str _ => isFalse (by intro h; cases h)
  | .bool _, .arr _ => isFalse (by intro h; cases h)
  | .bool _, .obj _ => isFalse (by intro h; cases h)
  | .num _, .null => isFalse (by intro h; cases h)
  | .num _, .bool _ => isFalse (by intro h; cases h)
  | .num _, .str _ => isFalse (by intro h; cases h)
  | .num _, .arr _ => isFalse (by intro h; cases h)
  | .num _, .obj _ => isFalse (by intro h; cases h)
  | .str _, .null => isFalse (by intro h; cases h)
  | .str _, .bool _ => isFalse (by intro h; cases h)
  | .str _, .num _ => isFalse (by intro h; cases h)
  | .str _, .arr _ => isFalse (by intro h; cases h)
  | .str _, .obj _ => isFalse (by intro h; cases h)
  | .arr _, .null => isFalse (by intro h; cases h)
  | .arr _, .bool _ => isFalse (by intro h; cases h)
  | .arr _, .num _ => isFalse (by intro h; cases h)
  | .arr _, .str _ => isFalse (by intro h; cases h)
  | .arr _, .obj _ => isFalse (by intro h; cases h)
  | .obj _, .null => isFalse (by intro h; cases h)
  | .obj _, .bool _ => isFalse (by intro h; cases h)
  | .obj _, .num _ => isFalse (by intro h; cases h)
  | .obj _, .str _ => isFalse (by intro h; cases h)
  | .obj _, .arr _ => isFalse (by intro h; cases h)

def jvalListDecEq : (a b : List JValue) → Decidable (a = b)
  | [], [] => isTrue rfl
  | [], _ :: _ => isFalse (by intro h; cases h)
  | _ :: _, [] => isFalse (by intro h; cases h)
  | x :: xs, y :: ys =>
    match jvalDecEq x y with
    | isTrue h =>
      match jvalListDecEq xs ys with
      | isTrue h2 => isTrue (by rw [h, h2])
      | isFalse h2 => isFalse (by intro hh; cases hh; exact h2 rfl)
    | isFalse h => isFalse (by intro hh; cases hh; exact h rfl)

def jvalFieldsDecEq : (a b : List (String × JValue)) → Decidable (a = b)
  | [], [] => isTrue rfl
  | [], _ :: _ => isFalse (by intro h; cases h)
  | _ :: _, [] => isFalse (by intro h; cases h)
  | (k1, v1) :: xs, (k2, v2) :: ys =>
    match decEq k1 k2 with
    | isTrue hk =>
      match jvalDecEq v1 v2 with
      | isTrue hv =>
        match jvalFieldsDecEq xs ys with
        | isTrue h2 => isTrue (by rw [hk, hv, h2])
        | isFalse h2 => isFalse (by intro hh; cases hh; exact h2 rfl)
      | isFalse hv => isFalse (by intro hh; cases hh; exact hv rfl)
    | isFalse hk => isFalse (by intro hh; cases hh; exact hk rfl)

end

instance : DecidableEq JValue := jvalDecEq

/-- JSON whitespace bytes (space, tab, newline, carriage return). -/
def isWS (c : Nat) : Bool := c == 32 || c == 9 || c == 10 || c == 13

/-- Skip leading whitespace. -/
def skipWS : List Nat → List Nat
  | c :: rest => if isWS c then skipWS rest else c :: rest
  | [] => []

/-- Is a decimal digit byte. -/
def isDigit (c : Nat) : Bool := 48 ≤ c && c ≤ 57

/-- Longest digit run at the front. -/
def spanDigits : List Nat → List Nat × List Nat
  | c :: rest =>
    if isDigit c then
      let r := spanDigits rest
      (c :: r.1, r.2)
    else ([], c :: rest)
  | [] => ([], [])

/-- Parse a JSON number token (already known not to start a literal,
string, array or object); returns its source bytes. -/
def parseNumTok (input : List Nat) : Option (List Nat × List Nat) :=
  let (neg, afterSign) :=
    match input with
    | 45 :: rest => ([45], rest)
    | _ => (([] : List Nat), input)
  match afterSign with
  | 48 :: rest => -- a leading zero must stand alone
    some (neg ++ [48], rest)
  | c :: _ =>
    if isDigit c then
      let r := spanDigits afterSign
      some (neg ++ r.1, r.2)
    else none
  | [] => none

/-- Fraction and exponent parts of a number token. -/
def parseFracExp (input : List Nat) : Option (List Nat × List Nat) :=
  let (frac, afterFrac) :=
    match input with
    | 46 :: rest =>
      match spanDigits rest with
      | ([], _) => ([46], rest) -- marker for failure below
      | (ds, r) => (46 :: ds, r)
    | _ => (([] : List Nat), input)
  if frac = [46] then none
  else
    match afterFrac with
    | c :: rest =>
      if c = 101 ∨ c = 69 then
        let (sgn, afterSgn) :=
          match rest with
          | 43 :: r => ([43], r)
          | 45 :: r => ([45], r)
          | _ => (([] : List Nat), rest)
        match spanDigits afterSgn with
        | ([], _) => none
        | (ds, r) => some (frac ++ c :: sgn ++ ds, r)
      else some (frac, c :: rest)
    | [] => some (frac, [])

/-- Decode one UTF-8 encoded rune from bytes (invalid input yields the
replacement character and consumes one byte, like Go's `DecodeRune`). -/
def utf8Decode : List Nat → Char × List Nat
  | [] => (Char.ofNat 0xfffd, [])
  | c :: rest =>
    if c < 128 then (Char.ofNat c, rest)
    else if 194 ≤ c ∧ c ≤ 223 then
      match rest with
      | c2 :: r2 =>
        if 128 ≤ c2 ∧ c2 ≤ 191 then (Char.ofNat ((c - 192) * 64 + (c2 - 128)), r2)
        else (Char.ofNat 0xfffd, rest)
      | _ => (Char.ofNat 0xfffd, rest)
    else if 224 ≤ c ∧ c ≤ 239 then
      match rest with
      | c2 :: c3 :: r3 =>
        if 128 ≤ c2 ∧ c2 ≤ 191 ∧ 128 ≤ c3 ∧ c3 ≤ 191 then
          let v := (c - 224) * 4096 + (c2 - 128) * 64 + (c3 - 128)
          if 2048 ≤ v ∧ ¬(55296 ≤ v ∧ v ≤ 57343) then (Char.ofNat v, r3)
          else (Char.ofNat 0xfffd, rest)
        else (Char.ofNat 0xfffd, rest)
      | _ => (Char.ofNat 0xfffd, rest)
    else if 240 ≤ c ∧ c ≤ 244 then
      match rest with
      | c2 :: c3 :: c4 :: r4 =>
        if 128 ≤ c2 ∧ c2 ≤ 191 ∧ 128 ≤ c3 ∧ c3 ≤ 191 ∧ 128 ≤ c4 ∧ c4 ≤ 191 then
          let v := (c - 240) * 262144 + (c2 - 128) * 4096 + (c3 - 128) * 64 + (c4 - 128)
          if 65536 ≤ v ∧ v ≤ 1114111 then (Char.ofNat v, r4)
          else (Char.ofNat 0xfffd, rest)
        else (Char.ofNat 0xfffd, rest)
      | _ => (Char.ofNat 0xfffd, rest)
    else (Char.ofNat 0xfffd, rest)

/-- Hex digit value of a byte, if any. -/
def hexVal (c : Nat) : Option Nat :=
  if 48 ≤ c ∧ c ≤ 57 then some (c - 48)
  else if 97 ≤ c ∧ c ≤ 102 then some (c - 87)
  else if 65 ≤ c ∧ c ≤ 70 then some (c - 55)
  else none

/-- Parse `XXXX` after `\u`. -/
def parseU4 : List Nat → Option (Nat × List Nat)
  | a :: b :: c :: d :: rest =>
    match hexVal a, hexVal b, hexVal c, hexVal d with
    | some x, some y, some z, some w => some (x * 4096 + y * 256 + z * 16 + w, rest)
    | _, _, _, _ => none
  | _ => none

mutual

/-- Parse the remainder of a JSON string after the opening quote,
accumulating characters. -/
def parseStrRest (fuel : Nat) (input : List Nat) (acc : List Char) :
    Option (String × List Nat) :=
  match fuel with
  | 0 => none
  | fuel + 1 =>
    match input with
    | [] => none
    | c :: rest =>
      if c = 34 then some (String.mk acc.reverse, rest)
      else if c = 92 then parseStrEsc fuel rest acc
      else if c < 32 then none
      else if c < 128 then parseStrRest fuel rest (Char.ofNat c :: acc)
      else
        let r := utf8Decode (c :: rest)
        parseStrRest fuel r.2 (r.1 :: acc)
termination_by structural fuel

/-- Handle one escape sequence (the bytes after a backslash), then continue
with the rest of the string. -/
def parseStrEsc (fuel : Nat) (input : List Nat) (acc : List Char) :
    Option (String × List Nat) :=
  match fuel with
  | 0 => none
  | fuel + 1 =>
    match input with
    | [] => none
    | esc :: rest2 =>
      if esc = 34 then parseStrRest fuel rest2 ('"' :: acc)
      else if esc = 92 then parseStrRest fuel rest2 ('\\' :: acc)
      else if esc = 47 then parseStrRest fuel rest2 ('/' :: acc)
      else if esc = 98 then parseStrRest fuel rest2 (Char.ofNat 8 :: acc)
      else if esc = 102 then parseStrRest fuel rest2 (Char.ofNat 12 :: acc)
      else if esc = 110 then parseStrRest fuel rest2 (Char.ofNat 10 :: acc)
      else if esc = 114 then parseStrRest fuel rest2 (Char.ofNat 13 :: acc)
      else if esc = 116 then parseStrRest fuel rest2 (Char.ofNat 9 :: acc)
      else if esc = 117 then
        match parseU4 rest2 with
        | none => none
        | some (cu, r1) =>
          if 55296 ≤ cu ∧ cu ≤ 56319 then
            match r1 with
            | 92 :: 117 :: r2 =>
              match parseU4 r2 with
              | some (lo, r3) =>
                if 56320 ≤ lo ∧ lo ≤ 57343 then
                  parseStrRest fuel r3
                    (Char.ofNat ((cu - 55296) * 1024 + (lo - 56320) + 65536) :: acc)
                else parseStrRest fuel r1 (Char.ofNat 0xfffd :: acc)
              | none => parseStrRest fuel r1 (Char.ofNat 0xfffd :: acc)
            | _ => parseStrRest fuel r1 (Char.ofNat 0xfffd :: acc)
          else if 56320 ≤ cu ∧ cu ≤ 57343 then
            parseStrRest fuel r1 (Char.ofNat 0xfffd :: acc)
          else parseStrRest fuel r1 (Char.ofNat cu :: acc)
      else none
termination_by structural fuel

end

mutual

/-- Parse one JSON value (after optional whitespace). -/
def parseVal (fuel : Nat) (input : List Nat) : Option (JValue × List Nat) :=
  match fuel with
  | 0 => none
  | fuel + 1 =>
    match skipWS input with
    | [] => none
    | 110 :: rest =>
      match rest with
      | 117 :: 108 :: 108 :: r => some (.null, r)
      | _ => none
    | 116 :: rest =>
      match rest with
      | 114 :: 117 :: 101 :: r => some (.bool true, r)
      | _ => none
    | 102 :: rest =>
      match rest with
      | 97 :: 108 :: 115 :: 101 :: r => some (.bool false, r)
      | _ => none
    | 34 :: rest =>
      match parseStrRest (rest.length + 1) rest [] with
      | some (s, r) => some (.str s, r)
      | none => none
    | 91 :: rest => parseArr fuel rest
    | 123 :: rest => parseObj fuel rest
    | c :: rest =>
      match parseNumTok (c :: rest) with
      | none => none
      | some (intPart, r1) =>
        match parseFracExp r1 with
        | none => none
        | some (fe, r2) =>
          some (.num (String.mk ((intPart ++ fe).map Char.ofNat)), r2)

/-- Parse an array body after `[`. -/
def parseArr (fuel : Nat) (input : List Nat) : Option (JValue × List Nat) :=
  match fuel with
  | 0 => none
  | fuel + 1 =>
    match skipWS input with
    | 93 :: r => some (.arr [], r)
    | other =>
      match parseArrElems fuel other [] with
      | some (xs, r) => some (.arr xs, r)
      | none => none

/-- Parse array elements (at a position where a value is expected). -/
def parseArrElems (fuel : Nat) (input : List Nat) (acc : List JValue) :
    Option (List JValue × List Nat) :=
  match fuel with
  | 0 => none
  | fuel + 1 =>
    match parseVal fuel input with
    | none => none
    | some (v, r1) =>
      match skipWS r1 with
      | 44 :: r2 => parseArrElems fuel r2 (v :: acc)
      | 93 :: r2 => some ((v :: acc).reverse, r2)
      | _ => none

/-- Parse an object body after `{`. -/
def parseObj (fuel : Nat) (input : List Nat) : Option (JValue × List Nat) :=
  match fuel with
  | 0 => none
  | fuel + 1 =>
    match skipWS input with
    | 125 :: r => some (.obj [], r)
    | other =>
      match parseObjFields fuel other [] with
      | some (fs, r) => some (.obj fs, r)
      | none => none

/-- Parse object members (at a position where a key is expected). -/
def parseObjFields (fuel : Nat) (input : List Nat)
    (acc : List (String × JValue)) : Option (List (String × JValue) × List Nat) :=
  match fuel with
  | 0 => none
  | fuel + 1 =>
    match skipWS input with
    | 34 :: rest =>
      match parseStrRest (rest.length + 1) rest [] with
      | none => none
      | some (k, r1) =>
        match skipWS r1 with
        | 58 :: r2 =>
          match parseVal fuel r2 with
          | none => none
          | some (v, r3) =>
            match skipWS r3 with
            | 44 :: r4 => parseObjFields fuel r4 ((k, v) :: acc)
            | 125 :: r4 => some (((k, v) :: acc).reverse, r4)
            | _ => none
        | _ => none
    | _ => none

end

/-- Parse one JSON value from a byte stream (what one `Decoder.Decode`
call consumes); the result and the unconsumed remainder. -/
def jsonParse (input : List Nat) : Option (JValue × List Nat) :=
  parseVal (input.length + 1) input

/-! ## Strict document decoding (`Decode` and the unmarshalers) -/

/-- Digit characters to a natural number (`none` on empty or non-digit). -/
def digitsToNat (cs : List Char) : Option Nat :=
  if cs = [] then none
  else if cs.all (fun c => 48 ≤ c.toNat ∧ c.toNat ≤ 57) then
    some (cs.foldl (fun acc c => acc * 10 + (c.toNat - 48)) 0)
  else none

/-- `strconv.ParseInt(s, 10, 64)`: optional sign, digits, 64-bit range. -/
def parseInt64 (s : String) : Option Int :=
  let core : Option Int :=
    match s.data with
    | [] => none
    | c :: rest =>
      if c = '-' then (digitsToNat rest).map (fun n => -(n : Int))
      else if c = '+' then (digitsToNat rest).map (fun n => (n : Int))
      else (digitsToNat (c :: rest)).map (fun n => (n : Int))
  match core with
  | some n => if -(2 ^ 63) ≤ n ∧ n < 2 ^ 63 then some n else none
  | none => none

/-- The `,string`-tagged int decode: `encoding/json` additionally requires
the quoted literal to begin with `-` or a digit before `ParseInt`. -/
def parseInt64Quoted (s : String) : Option Int :=
  match s.data with
  | c :: _ => if c = '-' ∨ (48 ≤ c.toNat ∧ c.toNat ≤ 57) then parseInt64 s else none
  | [] => none

/-- Standard base64 alphabet character for a 6-bit value. -/
def b64Chr (v : Nat) : Char :=
  if v < 26 then Char.ofNat (65 + v)
  else if v < 52 then Char.ofNat (97 + v - 26)
  else if v < 62 then Char.ofNat (48 + v - 52)
  else if v = 62 then '+' else '/'

/-- Standard base64 value of a character. -/
def b64Val (c : Char) : Option Nat :=
  let v := c.toNat
  if 65 ≤ v ∧ v ≤ 90 then some (v - 65)
  else if 97 ≤ v ∧ v ≤ 122 then some (v - 71)
  else if 48 ≤ v ∧ v ≤ 57 then some (v + 4)
  else if v = 43 then some 62
  else if v = 47 then some 63
  else none

/-- `base64.StdEncoding.EncodeToString` (with padding). -/
def base64Encode : List Nat → List Char
  | b1 :: b2 :: b3 :: rest =>
    b64Chr (b1 / 4 % 64) :: b64Chr ((b1 % 4) * 16 + b2 / 16 % 16) ::
      b64Chr ((b2 % 16) * 4 + b3 / 64 % 4) :: b64Chr (b3 % 64) :: base64Encode rest
  | [b1, b2] =>
    [b64Chr (b1 / 4 % 64), b64Chr ((b1 % 4) * 16 + b2 / 16 % 16),
     b64Chr ((b2 % 16) * 4), '=']
  | [b1] => [b64Chr (b1 / 4 % 64), b64Chr ((b1 % 4) * 16), '=', '=']
  | [] => []

/-- `base64.StdEncoding.DecodeString` on a character list. -/
def base64Decode : List Char → Option (List Nat)
  | [] => some []
  | c1 :: c2 :: c3 :: c4 :: rest =>
    match b64Val c1, b64Val c2 with
    | some v1, some v2 =>
      if c3 = '=' then
        if c4 = '=' ∧ rest = [] then some [v1 * 4 + v2 / 16]
        else none
      else
        match b64Val c3 with
        | some v3 =>
          if c4 = '=' then
            if rest = [] then some [v1 * 4 + v2 / 16, (v2 % 16) * 16 + v3 / 4]
            else none
          else
            match b64Val c4, base64Decode rest with
            | some v4, some tail =>
              some ((v1 * 4 + v2 / 16) :: ((v2 % 16) * 16 + v3 / 4) ::
                ((v3 % 4) * 64 + v4) :: tail)
            | _, _ => none
        | none => none
    | _, _ => none
  | _ => none

/-- Zero values of the model types (Go zero structs). -/
def zeroND : NodeData := ⟨0, 0, 0, "", 0, "", false, "", "", "", [], []⟩

def zeroNode : BookmarkNode := .mk none zeroND

def zeroRoots : BookmarksRoots := ⟨zeroNode, zeroNode, zeroNode⟩

def zeroBookmarks : Bookmarks := ⟨"", zeroRoots, none, 0, [], []⟩

/-- Decode into a plain string field (JSON null keeps the current value). -/
def decString (v : JValue) (cur : String) : Except String String :=
  match v with
  | .null => .ok cur
  | .str s => .ok s
  | _ => .error "json: cannot unmarshal value into string field"

/-- Decode into a bool field. -/
def decBool (v : JValue) (cur : Bool) : Except String Bool :=
  match v with
  | .null => .ok cur
  | .bool b => .ok b
  | _ => .error "json: cannot unmarshal value into bool field"

/-- `Time.UnmarshalJSON`: unmarshal into a fresh string, then `ParseInt`
(so JSON null leaves the string empty and `ParseInt` fails). -/
def decTime (v : JValue) : Except String Int :=
  match v with
  | .null => .error "strconv.ParseInt: parsing: invalid syntax"
  | .str s =>
    match parseInt64 s with
    | some n => .ok n
    | none => .error "strconv.ParseInt: parsing: invalid syntax"
  | _ => .error "json: cannot unmarshal value into string"

/-- `GUID.UnmarshalJSON`: unmarshal into the string, then `Valid`. -/
def decGUID (v : JValue) (cur : String) : Except String String :=
  match v with
  | .null => if GUIDValid (utf8Bytes cur) then .ok cur else .error "invalid guid"
  | .str g => if GUIDValid (utf8Bytes g) then .ok g else .error "invalid guid"
  | _ => .error "json: cannot unmarshal value into string"

/-- `NodeType.UnmarshalJSON`: unmarshal then validate the closed set. -/
def decNodeType (v : JValue) (cur : String) : Except String String :=
  match v with
  | .null =>
    if cur = "url" ∨ cur = "folder" then .ok cur
    else .error "unrecognized node type"
  | .str t =>
    if t = "url" ∨ t = "folder" then .ok t
    else .error "unrecognized node type"
  | _ => .error "json: cannot unmarshal value into string"

/-- `Source.UnmarshalJSON`: unmarshal then validate the closed set. -/
def decSource (v : JValue) (cur : String) : Except String String :=
  match v with
  | .null =>
    if cur = "user_add" ∨ cur = "import_fre" ∨ cur = "unknown" then .ok cur
    else .error "unrecognized source"
  | .str t =>
    if t = "user_add" ∨ t = "import_fre" ∨ t = "unknown" then .ok t
    else .error "unrecognized source"
  | _ => .error "json: cannot unmarshal value into string"

/-- `Version.UnmarshalJSON`: unmarshal into int then validate `== 1`. -/
def decVersion (v : JValue) (cur : Int) : Except String Int :=
  match v with
  | .null => if cur = 1 then .ok cur else .error "unsupported bookmarks version"
  | .num tok =>
    match parseInt64Quoted tok with
    | some n => if n = 1 then .ok n else .error "unsupported bookmarks version"
    | none => .error "json: cannot unmarshal number into int"
  | _ => .error "json: cannot unmarshal value into int"

/-- `Bytes.UnmarshalJSON`: null → nil, empty string → empty, else base64. -/
def decBytes (v : JValue) : Except String (Option (List Nat)) :=
  match v with
  | .null => .ok none
  | .str s =>
    if s = "" then .ok (some [])
    else
      match base64Decode s.data with
      | some bs => .ok (some bs)
      | none => .error "illegal base64 data"
  | _ => .error "json: cannot unmarshal value into string"

/-- Map entry insertion (Go map assignment: replace or add). -/
def mapSet (m : List (String × String)) (k v : String) : List (String × String) :=
  if m.any (fun p => p.1 == k) then
    m.map (fun p => if p.1 == k then (k, v) else p)
  else m ++ [(k, v)]

/-- Decode into a `map[string]string` (null → nil; members merge into the
current map, later duplicates winning). -/
def decSMap (v : JValue) (cur : List (String × String)) :
    Except String (List (String × String)) :=
  match v with
  | .null => .ok []
  | .obj fields =>
    fields.foldlM (fun m kv =>
      match kv.2 with
      | .null => .ok (mapSet m kv.1 "")
      | .str s => .ok (mapSet m kv.1 s)
      | _ => .error "json: cannot unmarshal value into string") cur
  | _ => .error "json: cannot unmarshal value into map"

mutual

/-- Unmarshal a JSON value into a `BookmarkNode` (strict: unknown fields
error; null keeps the current value). -/
def decNode (v : JValue) (cur : BookmarkNode) : Except String BookmarkNode :=
  match v with
  | .null => .ok cur
  | .obj fields => decNodeFields fields cur
  | _ => .error "json: cannot unmarshal value into BookmarkNode"

/-- Fold the members of a node object into the current node. -/
def decNodeFields (fields : List (String × JValue)) (cur : BookmarkNode) :
    Except String BookmarkNode :=
  match fields with
  | [] => .ok cur
  | (k, v) :: rest =>
    match cur with
    | .mk ch dt =>
      if k = "children" then
        match v with
        | .null =>
          decNodeFields rest (.mk none dt)
        | .arr xs =>
          match decNodeList xs with
          | .ok ns => decNodeFields rest (.mk (some ns) dt)
          | .error e => .error e
        | _ => .error "json: cannot unmarshal value into slice"
      else if k = "date_added" then
        match decTime v with
        | .ok n => decNodeFields rest (.mk ch { dt with dateAdded := n })
        | .error e => .error e
      else if k = "date_last_used" then
        match decTime v with
        | .ok n => decNodeFields rest (.mk ch { dt with dateLastUsed := n })
        | .error e => .error e
      else if k = "date_modified" then
        match decTime v with
        | .ok n => decNodeFields rest (.mk ch { dt with dateModified := n })
        | .error e => .error e
      else if k = "guid" then
        match decGUID v dt.guid with
        | .ok g => decNodeFields rest (.mk ch { dt with guid := g })
        | .error e => .error e
      else if k = "id" then
        match v with
        | .str s =>
          match parseInt64Quoted s with
          | some n => decNodeFields rest (.mk ch { dt with id := n })
          | none => .error "json: invalid use of ,string struct tag"
        | _ => .error "json: invalid use of ,string struct tag"
      else if k = "name" then
        match decString v dt.name with
        | .ok s => decNodeFields rest (.mk ch { dt with name := s })
        | .error e => .error e
      else if k = "show_icon" then
        match decBool v dt.showIcon with
        | .ok b => decNodeFields rest (.mk ch { dt with showIcon := b })
        | .error e => .error e
      else if k = "source" then
        match decSource v dt.source with
        | .ok s => decNodeFields rest (.mk ch { dt with source := s })
        | .error e => .error e
      else if k = "type" then
        match decNodeType v dt.type with
        | .ok t => decNodeFields rest (.mk ch { dt with type := t })
        | .error e => .error e
      else if k = "url" then
        match decString v dt.url with
        | .ok s => decNodeFields rest (.mk ch { dt with url := s })
        | .error e => .error e
      else if k = "meta_info" then
        match decSMap v dt.metaInfo with
        | .ok m => decNodeFields rest (.mk ch { dt with metaInfo := m })
        | .error e => .error e
      else if k = "unsynced_meta_info" then
        match decSMap v dt.unsyncedMetaInfo with
        | .ok m => decNodeFields rest (.mk ch { dt with unsyncedMetaInfo := m })
        | .error e => .error e
      else .error "json: unknown field"

/-- Decode an array of node objects into fresh zero nodes. -/
def decNodeList (xs : List JValue) : Except String (List BookmarkNode) :=
  match xs with
  | [] => .ok []
  | x :: rest =>
    match decNode x zeroNode with
    | .ok n =>
      match decNodeList rest with
      | .ok ns => .ok (n :: ns)
      | .error e => .error e
    | .error e => .error e

end

/-- Unmarshal into the `roots` sub-struct (strict). -/
def decRoots (v : JValue) (cur : BookmarksRoots) : Except String BookmarksRoots :=
  match v with
  | .null => .ok cur
  | .obj fields =>
    fields.foldlM (fun r kv =>
      if kv.1 = "bookmark_bar" then
        match decNode kv.2 r.bookmarkBar with
        | .ok n => .ok { r with bookmarkBar := n }
        | .error e => .error e
      else if kv.1 = "other" then
        match decNode kv.2 r.other with
        | .ok n => .ok { r with other := n }
        | .error e => .error e
      else if kv.1 = "synced" then
        match decNode kv.2 r.mobileBookmark with
        | .ok n => .ok { r with mobileBookmark := n }
        | .error e => .error e
      else .error "json: unknown field") cur
  | _ => .error "json: cannot unmarshal value into struct"

/-- Fold one member of the top-level document object into the current
`Bookmarks` (strict: unknown fields error). -/
def decBookmarksField (b : Bookmarks) (kv : String × JValue) : Except String Bookmarks :=
  if kv.1 = "checksum" then
    match decString kv.2 b.checksum with
    | .ok s => .ok { b with checksum := s }
    | .error e => .error e
  else if kv.1 = "roots" then
    match decRoots kv.2 b.roots with
    | .ok r => .ok { b with roots := r }
    | .error e => .error e
  else if kv.1 = "sync_metadata" then
    match decBytes kv.2 with
    | .ok m => .ok { b with syncMetadata := m }
    | .error e => .error e
  else if kv.1 = "version" then
    match decVersion kv.2 b.version with
    | .ok n => .ok { b with version := n }
    | .error e => .error e
  else if kv.1 = "meta_info" then
    match decSMap kv.2 b.metaInfo with
    | .ok m => .ok { b with metaInfo := m }
    | .error e => .error e
  else if kv.1 = "unsynced_meta_info" then
    match decSMap kv.2 b.unsyncedMetaInfo with
    | .ok m => .ok { b with unsyncedMetaInfo := m }
    | .error e => .error e
  else .error "json: unknown field"

/-- Unmarshal a JSON value into a `Bookmarks` document (strict). -/
def decBookmarks (v : JValue) : Except String Bookmarks :=
  match v with
  | .null => .ok zeroBookmarks
  | .obj fields => fields.foldlM decBookmarksField zeroBookmarks
  | _ => .error "json: cannot unmarshal value into struct"

/-- The structural part of `Decode`: JSON parse plus strict unmarshal,
before any checksum consideration. -/
def structDecode (input : List Nat) : Except String Bookmarks :=
  match jsonParse input with
  | none => .error "json: syntax error"
  | some (v, _) => decBookmarks v

/-- `Decode`: strict decode, plus the advisory checksum-validity flag. -/
def Decode (input : List Nat) : Except String (Bookmarks × Bool) :=
  match structDecode input with
  | .error e => .error e
  | .ok b => .ok (b, b.checksum == b.CalculateChecksum)

/-! ## Encoding (`Encode` and the marshalers), at the JSON-value level -/

/-- The decimal string of an integer (`strconv.FormatInt`). -/
def intDecString (i : Int) : String :=
  String.mk ((itoa i).map Char.ofNat)

/-- The bytes `Time.MarshalJSON` returns: nil for the zero sentinel,
otherwise the quoted decimal. -/
def timeMarshalBytes (t : Int) : List Nat :=
  if t = 0 then [] else 34 :: (itoa t ++ [34])

/-- The encoder passes each `MarshalJSON` output through `compact`, which
demands exactly one complete JSON value; empty output is rejected with
`unexpected end of JSON input`. -/
def encodeTimeField (t : Int) : Except String JValue :=
  match jsonParse (timeMarshalBytes t) with
  | some (v, rest) =>
    if skipWS rest = [] then .ok v
    else .error "json: error calling MarshalJSON for type Time: invalid character after top-level value"
  | none => .error "json: error calling MarshalJSON for type Time: unexpected end of JSON input"

/-- A string map as a JSON object of string members. -/
def encodeSMap (m : List (String × String)) : JValue :=
  .obj (m.map (fun p => (p.1, .str p.2)))

/-- Marshal the scalar fields of one node, given the already-marshaled
`children` members, in struct-field order with the `omitempty` rules and
each field's `MarshalJSON` validation. -/
def encNodeData (cf : List (String × JValue)) (dt : NodeData) : Except String JValue :=
  match encodeTimeField dt.dateAdded with
      | .error e => .error e
      | .ok va =>
        match ((if dt.dateLastUsed = 0 then .ok ([] : List (String × JValue))
               else match encodeTimeField dt.dateLastUsed with
                    | .ok v => .ok [("date_last_used", v)]
                    | .error e => .error e) : Except String (List (String × JValue))) with
        | .error e => .error e
        | .ok lu =>
          match ((if dt.dateModified = 0 then .ok ([] : List (String × JValue))
                 else match encodeTimeField dt.dateModified with
                      | .ok v => .ok [("date_modified", v)]
                      | .error e => .error e) : Except String (List (String × JValue))) with
          | .error e => .error e
          | .ok lm =>
            if ¬ GUIDValid (utf8Bytes dt.guid) then .error "invalid guid format"
            else
              match ((if dt.source = "" then .ok ([] : List (String × JValue))
                     else if dt.source = "user_add" ∨ dt.source = "import_fre" ∨
                             dt.source = "unknown"
                     then .ok [("source", JValue.str dt.source)]
                     else .error "unrecognized source") : Except String (List (String × JValue))) with
              | .error e => .error e
              | .ok src =>
                if ¬ (dt.type = "url" ∨ dt.type = "folder") then
                  .error "unrecognized node type"
                else
                  .ok (JValue.obj (cf ++ [("date_added", va)] ++ lu ++ lm ++
                    [("guid", JValue.str dt.guid),
                     ("id", JValue.str (intDecString dt.id)),
                     ("name", JValue.str dt.name)] ++
                    (if dt.showIcon then [("show_icon", JValue.bool true)] else []) ++
                    src ++ [("type", JValue.str dt.type)] ++
                    (if dt.url = "" then [] else [("url", JValue.str dt.url)]) ++
                    (if dt.metaInfo = [] then []
                     else [("meta_info", encodeSMap dt.metaInfo)]) ++
                    (if dt.unsyncedMetaInfo = [] then []
                     else [("unsynced_meta_info", encodeSMap dt.unsyncedMetaInfo)])))

mutual

/-- Marshal one `BookmarkNode`: the recursive `children` member (absent for
a nil slice) followed by the scalar fields. -/
def encodeNode : BookmarkNode → Except String JValue
  | .mk ch dt =>
    match ch with
    | none => encNodeData [] dt
    | some cs =>
      match encodeNodeList cs with
      | .error e => .error e
      | .ok js => encNodeData [("children", JValue.arr js)] dt

/-- Marshal a children slice. -/
def encodeNodeList : List BookmarkNode → Except String (List JValue)
  | [] => .ok []
  | n :: rest =>
    match encodeNode n with
    | .error e => .error e
    | .ok j =>
      match encodeNodeList rest with
      | .ok js => .ok (j :: js)
      | .error e => .error e

end

/-- Marshal a whole document (`Encode` up to JSON-text rendering). -/
def encodeBookmarks (b : Bookmarks) : Except String JValue :=
  match encodeNode b.roots.bookmarkBar with
  | .error e => .error e
  | .ok j1 =>
    match encodeNode b.roots.other with
    | .error e => .error e
    | .ok j2 =>
      match encodeNode b.roots.mobileBookmark with
      | .error e => .error e
      | .ok j3 =>
        if b.version = 1 then
          .ok (JValue.obj ([("checksum", JValue.str b.checksum),
            ("roots", JValue.obj [("bookmark_bar", j1), ("other", j2),
              ("synced", j3)])] ++
            (match b.syncMetadata with
             | none => []
             | some [] => []
             | some bs => [("sync_metadata",
                 JValue.str (String.mk (base64Encode bs)))]) ++
            [("version", JValue.num (intDecString b.version))] ++
            (if b.metaInfo = [] then []
             else [("meta_info", encodeSMap b.metaInfo)]) ++
            (if b.unsyncedMetaInfo = [] then []
             else [("unsynced_meta_info", encodeSMap b.unsyncedMetaInfo)])))
        else .error "unsupported bookmarks version"

/-- Decode at the JSON-value level, with the advisory validity flag (the
value-level view of `Decode`). -/
def DecodeJV (v : JValue) : Except String (Bookmarks × Bool) :=
  match decBookmarks v with
  | .error e => .error e
  | .ok b => .ok (b, b.checksum == b.CalculateChecksum)

/-! ## Round-trip normalization and range predicates -/

/-- Value of little-endian decimal digits. -/
def ofDigitsRev : List Nat → Nat
  | [] => 0
  | d :: ds => d + 10 * ofDigitsRev ds

/-- The map a fresh Go map decode of these entries produces (later
duplicates win). -/
def normMap (m : List (String × String)) : List (String × String) :=
  m.foldl (fun acc p => mapSet acc p.1 p.2) []

mutual

/-- The node an encode/decode round trip reproduces: identical except that
the association-list view of each map is deduplicated. -/
def normNode : BookmarkNode → BookmarkNode
  | .mk ch dt =>
    .mk (match ch with
         | none => none
         | some cs => some (normNodeList cs))
      { dt with metaInfo := normMap dt.metaInfo,
                unsyncedMetaInfo := normMap dt.unsyncedMetaInfo }

def normNodeList : List BookmarkNode → List BookmarkNode
  | [] => []
  | c :: rest => normNode c :: normNodeList rest

end

/-- The document an encode/decode round trip reproduces. -/
def normBookmarks (b : Bookmarks) : Bookmarks :=
  { b with
    roots := ⟨normNode b.roots.bookmarkBar, normNode b.roots.other,
      normNode b.roots.mobileBookmark⟩,
    syncMetadata := (match b.syncMetadata with
                     | some [] => none
                     | x => x),
    metaInfo := normMap b.metaInfo,
    unsyncedMetaInfo := normMap b.unsyncedMetaInfo }

/-- A model integer fits in a Go `int64`. -/
def int64OK (i : Int) : Bool := decide (-(2 ^ 63) ≤ i ∧ i < 2 ^ 63)

/-- All machine-width integers of one node's scalar data are in range. -/
def ndRange (dt : NodeData) : Bool :=
  int64OK dt.id && int64OK dt.dateAdded && int64OK dt.dateLastUsed &&
    int64OK dt.dateModified

mutual

def nodeRange : BookmarkNode → Bool
  | .mk ch dt =>
    ndRange dt &&
      (match ch with
       | none => true
       | some cs => nodeListRange cs)

def nodeListRange : List BookmarkNode → Bool
  | [] => true
  | c :: rest => nodeRange c && nodeListRange rest

end

/-- Well-rangedness of a document for the round-trip statement: every
node's integers fit in `int64` (true of any value Go can hold) and the
sync-metadata blob is made of bytes. -/
def encRange (b : Bookmarks) : Bool :=
  nodeRange b.roots.bookmarkBar && nodeRange b.roots.other &&
    nodeRange b.roots.mobileBookmark &&
    (match b.syncMetadata with
     | none => true
     | some bs => bs.all (· < 256))

/-! ## Forensic carving (`Carve`), over a finite byte source -/

/-- The 18-byte match signature `s1` the carver scans for (the opening of a
Chrome bookmarks file up to the checksum value's opening quote). -/
def s1bytes : List Nat :=
  [123, 10, 32, 32, 32, 34, 99, 104, 101, 99, 107, 115, 117, 109, 34, 58,
   32, 34]

/-- The containment signature `s2` (`"roots"` followed by `"bookmark_bar"`)
required within the first 1024 bytes after the match signature. -/
def s2bytes : List Nat :=
  [32, 32, 32, 34, 114, 111, 111, 116, 115, 34, 58, 32, 123, 10, 32, 32,
   32, 32, 32, 32, 34, 98, 111, 111, 107, 109, 97, 114, 107, 95, 98, 97,
   114, 34, 58, 32, 123]

/-- One `r.ReadByte` scan of the match signature: `eof` when the source
ends mid-signature, `mismatch` after consuming the offending byte, or
`matched`; carries the cursor and the unread remainder. -/
inductive ScanRes
  | eof
  | mismatch (off : Nat) (rest : List Nat)
  | matched (off : Nat) (rest : List Nat)

/-- Match the signature byte-by-byte from the cursor, consuming each byte
exactly once (a mismatching byte is consumed and not re-examined). -/
def scanHdr : List Nat → List Nat → Nat → ScanRes
  | [], rest, off => .matched off rest
  | _ :: _, [], _ => .eof
  | x :: xs, c :: rest, off =>
    if c = x then scanHdr xs rest (off + 1) else .mismatch (off + 1) rest

/-- `bytes.HasPrefix` on byte lists. -/
def startsWithBytes : List Nat → List Nat → Bool
  | [], _ => true
  | _ :: _, [] => false
  | p :: ps, c :: cs => p == c && startsWithBytes ps cs

/-- `bytes.Contains` on byte lists. -/
def containsBytes (pat : List Nat) : List Nat → Bool
  | [] => startsWithBytes pat []
  | c :: cs => startsWithBytes pat (c :: cs) || containsBytes pat cs

/-- The carve loop. One iteration scans for the signature from the cursor
(`ReadByte` end-of-source ends the scan with the invocations so far, as Go
maps that `io.EOF` to a nil return); after a full match it reads 1024 bytes
at the cursor through the `SectionReader` — fewer than 1024 remaining makes
that `Read` return `io.EOF`, which `Carve` propagates as an error — checks
`s2` containment, parses one JSON value from the signature plus the section
(capped at 20 MiB), strictly decodes it, and on a checksum-valid document
records `(cursor - 18, raw JSON bytes)`; in every candidate outcome
scanning resumes at the cursor just after the signature. -/
def carveLoop : Nat → List Nat → Nat → List (Nat × List Nat) →
    Except String (List (Nat × List Nat))
  | 0, _, _, acc => .ok acc
  | fuel + 1, rest, off, acc =>
    match scanHdr s1bytes rest off with
    | .eof => .ok acc
    | .mismatch o2 r2 => carveLoop fuel r2 o2 acc
    | .matched p r2 =>
      if r2.length < 1024 then .error "EOF"
      else if ¬ containsBytes s2bytes (r2.take 1024) then carveLoop fuel r2 p acc
      else
        match jsonParse (s1bytes ++ r2.take 20971520) with
        | none => carveLoop fuel r2 p acc
        | some (_, remain) =>
          let stream := s1bytes ++ r2.take 20971520
          let jb := stream.take (stream.length - remain.length)
          match Decode jb with
          | .error _ => carveLoop fuel r2 p acc
          | .ok (_, valid) =>
            if valid then carveLoop fuel r2 p (acc ++ [(p - 18, jb)])
            else carveLoop fuel r2 p acc

/-- `Carve` over a finite byte source, with a pure sink that records each
invocation's (offset, raw bytes): `.ok` is the invocation list at a clean
end of source, `.error` a propagated I/O error. -/
def Carve (src : List Nat) : Except String (List (Nat × List Nat)) :=
  carveLoop (src.length + 1) src 0 []

/-- Byte text of a well-formed document whose stored checksum
`d41d8cd98f00b204e9800998ecf8427e` (the MD5 of the empty stream) matches
the recomputed checksum of its three empty untyped roots. -/
def c2docBytes : List Nat :=
  [123, 10, 32, 32, 32, 34, 99, 104, 101, 99, 107, 115, 117, 109, 34, 58,
   32, 34, 100, 52, 49, 100, 56, 99, 100, 57, 56, 102, 48, 48, 98, 50,
   48, 52, 101, 57, 56, 48, 48, 57, 57, 56, 101, 99, 102, 56, 52, 50, 55,
   101, 34, 44, 10, 32, 32, 32, 34, 114, 111, 111, 116, 115, 34, 58, 32,
   123, 10, 32, 32, 32, 32, 32, 32, 34, 98, 111, 111, 107, 109, 97, 114,
   107, 95, 98, 97, 114, 34, 58, 32, 123, 125, 44, 10, 32, 32, 32, 32,
   32, 32, 34, 111, 116, 104, 101, 114, 34, 58, 32, 123, 125, 44, 10, 32,
   32, 32, 32, 32, 32, 34, 115, 121, 110, 99, 101, 100, 34, 58, 32, 123,
   125, 10, 32, 32, 32, 125, 44, 10, 32, 32, 32, 34, 118, 101, 114, 115,
   105, 111, 110, 34, 58, 32, 49, 10, 125]

/-- The document `c2docBytes` (and the inner extent of `c3outerBytes`)
decode to, up to the version field. -/
def c2doc : Bookmarks :=
  { zeroBookmarks with checksum := "d41d8cd98f00b204e9800998ecf8427e", version := 1 }

/-- 1000 filler space bytes, enough that a candidate read of 1024 bytes
after a signature match inside the preceding document succeeds. -/
def fillerBytes : List Nat := List.replicate 1000 32

/-- A checksum-valid document whose `meta_info` sub-object is formatted so
that its raw text embeds the carver's 18-byte signature followed by a
decodable, checksum-valid mini-document. -/
def c3outerBytes : List Nat :=
  [123, 10, 32, 32, 32, 34, 99, 104, 101, 99, 107, 115, 117, 109, 34, 58,
   32, 34, 100, 52, 49, 100, 56, 99, 100, 57, 56, 102, 48, 48, 98, 50,
   48, 52, 101, 57, 56, 48, 48, 57, 57, 56, 101, 99, 102, 56, 52, 50, 55,
   101, 34, 44, 10, 32, 32, 32, 34, 109, 101, 116, 97, 95, 105, 110, 102,
   111, 34, 58, 32, 123, 10, 32, 32, 32, 34, 99, 104, 101, 99, 107, 115,
   117, 109, 34, 58, 32, 34, 100, 52, 49, 100, 56, 99, 100, 57, 56, 102,
   48, 48, 98, 50, 48, 52, 101, 57, 56, 48, 48, 57, 57, 56, 101, 99, 102,
   56, 52, 50, 55, 101, 34, 125, 44, 10, 32, 32, 32, 34, 114, 111, 111,
   116, 115, 34, 58, 32, 123, 10, 32, 32, 32, 32, 32, 32, 34, 98, 111,
   111, 107, 109, 97, 114, 107, 95, 98, 97, 114, 34, 58, 32, 123, 125,
   44, 10, 32, 32, 32, 32, 32, 32, 34, 111, 116, 104, 101, 114, 34, 58,
   32, 123, 125, 44, 10, 32, 32, 32, 32, 32, 32, 34, 115, 121, 110, 99,
   101, 100, 34, 58, 32, 123, 125, 10, 32, 32, 32, 125, 44, 10, 32, 32,
   32, 34, 118, 101, 114, 115, 105, 111, 110, 34, 58, 32, 49, 10, 125]

/-- The embedded JSON extent starting at offset 69 inside `c3outerBytes`
(the `meta_info` object, which alone decodes as a checksum-valid zero
document). -/
def c3innerBytes : List Nat :=
  [123, 10, 32, 32, 32, 34, 99, 104, 101, 99, 107, 115, 117, 109, 34, 58,
   32, 34, 100, 52, 49, 100, 56, 99, 100, 57, 56, 102, 48, 48, 98, 50,
   48, 52, 101, 57, 56, 48, 48, 57, 57, 56, 101, 99, 102, 56, 52, 50, 55,
   101, 34, 125]

/-! ## Sample documents for witnesses and counterexamples -/

/-- A zero `NodeData` (all fields at their Go zero values except `type`). -/
def nd0 (t name : String) (id : Int) (url : String) : NodeData :=
  ⟨1, 0, 0, "", id, name, false, "", t, url, [], []⟩

/-- A small well-formed document: a bookmark bar folder holding one URL
node, and empty other/synced folders. -/
def exDoc : Bookmarks :=
  ⟨"", ⟨.mk (some [.mk none (nd0 "url" "a" 5 "http://x/")]) (nd0 "folder" "r" 1 ""),
        .mk none (nd0 "folder" "o" 2 ""),
        .mk none (nd0 "folder" "s" 3 "")⟩, none, 1, [], []⟩

/-- Byte text of a minimal well-formed document whose stored checksum
(all zeros) mismatches the recomputed one. -/
def d4bytes : List Nat := [123, 10, 32, 32, 32, 34, 99, 104, 101, 99, 107, 115, 117, 109, 34, 58, 32, 34, 48, 48, 48, 48, 48, 48, 48, 48, 48, 48, 48, 48, 48, 48, 48, 48, 48, 48, 48, 48, 48, 48, 48, 48, 48, 48, 48, 48, 48, 48, 48, 48, 34, 44, 10, 32, 32, 32, 34, 114, 111, 111, 116, 115, 34, 58, 32, 123, 10, 32, 32, 32, 32, 32, 32, 34, 98, 111, 111, 107, 109, 97, 114, 107, 95, 98, 97, 114, 34, 58, 32, 123, 125, 44, 10, 32, 32, 32, 32, 32, 32, 34, 111, 116, 104, 101, 114, 34, 58, 32, 123, 125, 44, 10, 32, 32, 32, 32, 32, 32, 34, 115, 121, 110, 99, 101, 100, 34, 58, 32, 123, 125, 10, 32, 32, 32, 125, 44, 10, 32, 32, 32, 34, 118, 101, 114, 115, 105, 111, 110, 34, 58, 32, 49, 10, 125]

/-- The document `d4bytes` decodes to. -/
def d4doc : Bookmarks :=
  { zeroBookmarks with checksum := "00000000000000000000000000000000", version := 1 }

/-- A node-data template with a valid GUID and nonzero `date_added`. -/
def cx5nd : NodeData :=
  ⟨1, 0, 0, "c19af04d-2222-3333-4444-555566667777", 2, "bar", false, "",
   "folder", "", [], []⟩

/-- A fully encodable document whose stored checksum `"beef"` mismatches
the recomputed one. -/
def cx5doc : Bookmarks :=
  ⟨"beef",
   ⟨.mk none { cx5nd with id := 1 }, .mk none { cx5nd with id := 2 },
    .mk none { cx5nd with id := 3 }⟩,
   none, 1, [], []⟩

/-- A url node with zero `date_added` (the sentinel). -/
def c7zero : BookmarkNode :=
  .mk none { cx5nd with dateAdded := 0, id := 7, name := "n", type := "url", url := "u" }

/-- The same url node with `date_added = 5`. -/
def c7url : BookmarkNode :=
  .mk none { cx5nd with dateAdded := 5, id := 7, name := "n", type := "url", url := "u" }

/-- A document whose bookmark-bar root has the zero `date_added`. -/
def c7doc : Bookmarks :=
  ⟨"beef", ⟨.mk none { cx5nd with dateAdded := 0 }, .mk none cx5nd, .mk none cx5nd⟩,
   none, 1, [], []⟩

/-! # Theorems -/

theorem specPreorder_mk (children : Option (List BookmarkNode)) (dt : NodeData) :
    specPreorder (.mk children dt) =
      .mk children dt ::
        (match children with
         | some cs => specPreorderList cs
         | none => []) := by
  cases children with
  | some cs => rw [specPreorder.eq_1]
  | none => rw [specPreorder.eq_2]

theorem specPreorderList_cons (c : BookmarkNode) (rest : List BookmarkNode) :
    specPreorderList (c :: rest) = specPreorder c ++ specPreorderList rest :=
  specPreorderList.eq_2 c rest

theorem specPreorderList_nil : specPreorderList [] = [] :=
  specPreorderList.eq_1

theorem nodeWF_mk (children : Option (List BookmarkNode)) (dt : NodeData)
    (h : nodeWF (.mk children dt) = true) :
    nodeOK (.mk children dt) = true ∧
      (match children with
       | some cs => nodeListWF cs = true
       | none => True) := by
  unfold nodeWF at h
  rw [specPreorder_mk] at h
  simp only [List.all_cons, Bool.and_eq_true] at h
  refine ⟨h.1, ?_⟩
  cases children with
  | none => trivial
  | some cs => exact h.2

mutual

theorem walkAux_chk (n : BookmarkNode) (parents : List String) (acc : List Nat)
    (h : nodeWF n = true) :
    BookmarkNode.walkAux chkFn n parents acc =
      (acc ++ ((specPreorder n).map specNodeBytes).flatten, none) := by
  cases n with
  | mk children dt =>
    obtain ⟨hok, hwf⟩ := nodeWF_mk children dt h
    simp only [nodeOK, Bool.and_eq_true, Bool.or_eq_true, beq_iff_eq,
      BookmarkNode.data, BookmarkNode.children, Option.isNone_iff_eq_none] at hok
    obtain ⟨hty, hch⟩ := hok
    rw [specPreorder_mk]
    cases hty with
    | inl hurl =>
      have hne : dt.type ≠ "folder" := by rw [hurl]; decide
      have hcn : children = none := by
        cases hch with
        | inl hf => exact absurd hf hne
        | inr hn => exact hn
      subst hcn
      simp [BookmarkNode.walkAux, chkFn, BookmarkNode.data, specNodeBytes, hurl]
    | inr hfold =>
      cases children with
      | none =>
        simp [BookmarkNode.walkAux, chkFn, BookmarkNode.data, specNodeBytes, hfold]
      | some cs =>
        have hcs : nodeListWF cs = true := hwf
        have ih := walkChildren_chk cs parents
          (acc ++ itoa dt.id ++ u16string dt.name ++ utf8Bytes dt.type) hcs
        rw [hfold] at ih
        simp only [List.append_assoc] at ih
        simp [BookmarkNode.walkAux, chkFn, BookmarkNode.data, specNodeBytes,
          hfold, ih, List.append_assoc]

theorem walkChildren_chk (l : List BookmarkNode) (parents : List String) (acc : List Nat)
    (h : nodeListWF l = true) :
    walkChildren chkFn l parents acc =
      (acc ++ ((specPreorderList l).map specNodeBytes).flatten, none) := by
  cases l with
  | nil => simp [walkChildren, specPreorderList]
  | cons c rest =>
    unfold nodeListWF at h
    rw [specPreorderList_cons] at h
    simp only [List.all_append, Bool.and_eq_true] at h
    obtain ⟨hc, hrest⟩ := h
    have ihc := walkAux_chk c (parents ++ [c.data.name]) acc (by unfold nodeWF; exact hc)
    have ihr := walkChildren_chk rest parents
      (acc ++ ((specPreorder c).map specNodeBytes).flatten)
      (by unfold nodeListWF; exact hrest)
    simp only [walkChildren, ihc, ihr]
    rw [specPreorderList_cons]
    simp [List.map_append, List.flatten_append, List.append_assoc]

end

/-- C1. For every structurally well-formed Document, `CalculateChecksum`
returns the lowercase hex MD5 digest of the stream obtained by walking
bookmark_bar, other, then synced depth-first pre-order and feeding, per
node: decimal id bytes, UTF-16LE name, the type tag literal, and (for url
nodes only) the URL's raw bytes. -/
theorem c1_checksum_spec (b : Bookmarks) (h : b.WF = true) :
    b.CalculateChecksum = specChecksum b := by
  simp only [Bookmarks.WF, Bool.and_eq_true] at h
  obtain ⟨⟨h1, h2⟩, h3⟩ := h
  have w1 : ∀ acc, BookmarkNode.walkAux chkFn b.roots.bookmarkBar [] acc =
      (acc ++ ((specPreorder b.roots.bookmarkBar).map specNodeBytes).flatten, none) :=
    fun acc => walkAux_chk _ _ acc h1
  have w2 : ∀ acc, BookmarkNode.walkAux chkFn b.roots.other [] acc =
      (acc ++ ((specPreorder b.roots.other).map specNodeBytes).flatten, none) :=
    fun acc => walkAux_chk _ _ acc h2
  have w3 : ∀ acc, BookmarkNode.walkAux chkFn b.roots.mobileBookmark [] acc =
      (acc ++ ((specPreorder b.roots.mobileBookmark).map specNodeBytes).flatten, none) :=
    fun acc => walkAux_chk _ _ acc h3
  simp [Bookmarks.CalculateChecksum, Bookmarks.Walk, w1, w2, w3, specChecksum,
    List.map_append, List.flatten_append, List.append_assoc]

/-- Witness for C1: the sample document is well-formed and its computed
checksum agrees with the claim-worded digest. -/
theorem c1_checksum_spec_witness :
    exDoc.WF = true ∧ exDoc.CalculateChecksum = specChecksum exDoc :=
  ⟨by decide, c1_checksum_spec exDoc (by decide)⟩

/-- C6 (code bug evaluation). On the sample document, the walk's context
for the URL node `"a"` is `["a"]` — the node's own name, with the root's
name absent — whereas the ancestor-name context the claim describes is
`["r"]`. The visit order itself is pre-order as claimed. -/
theorem c6_walk_context_divergence :
    (exDoc.Walk traceFn []).1 =
      [("r", []), ("a", ["a"]), ("o", []), ("s", [])] ∧
    specVisitsDoc exDoc =
      [("r", []), ("a", ["r"]), ("o", []), ("s", [])] := by
  constructor
  · rfl
  · rfl

/-! ### GUID lemmas -/

theorem xv_length : xv.length = 256 := by decide

theorem xvAt_spec (a : Nat) (h : xvAt a ≠ 255) :
    a < 256 ∧ xvAt a < 16 ∧
      (if xvAt a < 10 then 48 + xvAt a else 87 + xvAt a) = lowerByte a := by
  by_cases ha : a < 256
  · revert h
    revert ha
    revert a
    decide
  · exfalso
    apply h
    unfold xvAt
    apply List.getD_eq_default
    rw [xv_length]
    omega

theorem lor16 (b1 : Nat) (h1 : b1 < 16) (b2 : Nat) (h2 : b2 < 16) :
    (b1 <<< 4) % 256 ||| b2 = 16 * b1 + b2 := by
  revert h2
  revert b2
  revert h1
  revert b1
  decide

theorem xtob_valid (a b : Nat) (h : (xtob a b).2 = true) :
    hexByteLower (xtob a b).1 = [lowerByte a, lowerByte b] := by
  have hab : xvAt a ≠ 255 ∧ xvAt b ≠ 255 := by
    unfold xtob at h
    simpa using h
  obtain ⟨ha256, ha16, haeq⟩ := xvAt_spec a hab.1
  obtain ⟨hb256, hb16, hbeq⟩ := xvAt_spec b hab.2
  have hv : (xtob a b).1 = 16 * xvAt a + xvAt b := by
    unfold xtob
    exact lor16 _ ha16 _ hb16
  rw [hv]
  unfold hexByteLower
  have e1 : (16 * xvAt a + xvAt b) / 16 % 16 = xvAt a := by omega
  have e2 : (16 * xvAt a + xvAt b) % 16 = xvAt b := by omega
  rw [e1, e2, haeq, hbeq]

theorem guidBytesLoop_cons (s : List Nat) (i x : Nat) (rest : List (Nat × Nat))
    (u : List Nat) :
    guidBytesLoop s ((i, x) :: rest) u =
      if (xtob (s.getD x 0) (s.getD (x + 1) 0)).2 then
        guidBytesLoop s rest (u.set i ((xtob (s.getD x 0) (s.getD (x + 1) 0)).1))
      else (u, some GuidErr.hexchar) := rfl

theorem specPartialDecodeAux_cons (s : List Nat) (x : Nat) (rest : List Nat) :
    specPartialDecodeAux s (x :: rest) =
      if (xtob (s.getD x 0) (s.getD (x + 1) 0)).2 then
        (xtob (s.getD x 0) (s.getD (x + 1) 0)).1 :: specPartialDecodeAux s rest
      else List.replicate (x :: rest).length 0 := rfl

theorem loop_pd (s : List Nat) (ps : List Nat) :
    ∀ (k : Nat) (front : List Nat), front.length = k → k + ps.length = 16 →
    guidBytesLoop s (List.enumFrom k ps) (front ++ List.replicate (16 - k) 0) =
      (front ++ specPartialDecodeAux s ps,
       if ps.all (fun x => (xtob (s.getD x 0) (s.getD (x + 1) 0)).2) then none
       else some GuidErr.hexchar) := by
  induction ps with
  | nil =>
    intro k front hlen hsum
    simp only [List.length_nil] at hsum
    have h16 : 16 - k = 0 := by omega
    simp [guidBytesLoop, specPartialDecodeAux, h16, List.enumFrom]
  | cons x rest ih =>
    intro k front hlen hsum
    simp only [List.length_cons] at hsum
    rw [List.enumFrom_cons, guidBytesLoop_cons]
    by_cases hx : (xtob (s.getD x 0) (s.getD (x + 1) 0)).2 = true
    · rw [if_pos hx]
      have hrep : (16 : Nat) - k = (16 - (k + 1)) + 1 := by omega
      have hset : (front ++ List.replicate (16 - k) 0).set k
            ((xtob (s.getD x 0) (s.getD (x + 1) 0)).1) =
          (front ++ [(xtob (s.getD x 0) (s.getD (x + 1) 0)).1]) ++
            List.replicate (16 - (k + 1)) 0 := by
        have hle : front.length ≤ k := by omega
        rw [List.set_append_right _ _ hle, hlen, Nat.sub_self, hrep,
          List.replicate_succ, List.set_cons_zero, List.append_assoc]
        rfl
      have ihx := ih (k + 1) (front ++ [(xtob (s.getD x 0) (s.getD (x + 1) 0)).1])
        (by simp [hlen]) (by omega)
      rw [hset, ihx, specPartialDecodeAux_cons, if_pos hx]
      simp only [List.all_cons, hx, Bool.true_and, List.append_assoc,
        List.singleton_append]
    · simp only [Bool.not_eq_true] at hx
      rw [if_neg (show ¬ (xtob (s.getD x 0) (s.getD (x + 1) 0)).2 = true by rw [hx]; decide)]
      rw [specPartialDecodeAux_cons,
        if_neg (show ¬ (xtob (s.getD x 0) (s.getD (x + 1) 0)).2 = true by rw [hx]; decide)]
      have hl : (x :: rest).length = 16 - k := by
        simp only [List.length_cons]
        omega
      rw [hl]
      simp only [List.all_cons, hx, Bool.false_and, Bool.false_eq_true, if_false]

theorem guidHexPos_length : guidHexPos.length = 16 := by decide

theorem GUIDBytes_eq (s : List Nat) (hf : guidFormatOK s = true) :
    GUIDBytes s = (specPartialDecode s,
      if guidAll16 s then none else some GuidErr.hexchar) := by
  unfold GUIDBytes
  rw [if_pos hf]
  have he : guidHexPos.enum = List.enumFrom 0 guidHexPos := rfl
  have hr : List.replicate 16 0 = ([] : List Nat) ++ List.replicate (16 - 0) 0 := rfl
  rw [he, hr, loop_pd s guidHexPos 0 [] rfl (by rw [guidHexPos_length])]
  unfold specPartialDecode guidAll16
  rw [List.nil_append]

theorem list36 (s : List Nat) (h : s.length = 36) :
    s = [s.getD 0 0, s.getD 1 0, s.getD 2 0, s.getD 3 0, s.getD 4 0, s.getD 5 0, s.getD 6 0, s.getD 7 0, s.getD 8 0, s.getD 9 0, s.getD 10 0, s.getD 11 0, s.getD 12 0, s.getD 13 0, s.getD 14 0, s.getD 15 0, s.getD 16 0, s.getD 17 0, s.getD 18 0, s.getD 19 0, s.getD 20 0, s.getD 21 0, s.getD 22 0, s.getD 23 0, s.getD 24 0, s.getD 25 0, s.getD 26 0, s.getD 27 0, s.getD 28 0, s.getD 29 0, s.getD 30 0, s.getD 31 0, s.getD 32 0, s.getD 33 0, s.getD 34 0, s.getD 35 0] := by
  obtain ⟨a0, s, rfl⟩ := List.exists_of_length_succ s h
  have h1 : s.length = 35 := by simp only [List.length_cons] at h; omega
  obtain ⟨a1, s, rfl⟩ := List.exists_of_length_succ s h1
  have h2 : s.length = 34 := by simp only [List.length_cons] at h1; omega
  obtain ⟨a2, s, rfl⟩ := List.exists_of_length_succ s h2
  have h3 : s.length = 33 := by simp only [List.length_cons] at h2; omega
  obtain ⟨a3, s, rfl⟩ := List.exists_of_length_succ s h3
  have h4 : s.length = 32 := by simp only [List.length_cons] at h3; omega
  obtain ⟨a4, s, rfl⟩ := List.exists_of_length_succ s h4
  have h5 : s.length = 31 := by simp only [List.length_cons] at h4; omega
  obtain ⟨a5, s, rfl⟩ := List.exists_of_length_succ s h5
  have h6 : s.length = 30 := by simp only [List.length_cons] at h5; omega
  obtain ⟨a6, s, rfl⟩ := List.exists_of_length_succ s h6
  have h7 : s.length = 29 := by simp only [List.length_cons] at h6; omega
  obtain ⟨a7, s, rfl⟩ := List.exists_of_length_succ s h7
  have h8 : s.length = 28 := by simp only [List.length_cons] at h7; omega
  obtain ⟨a8, s, rfl⟩ := List.exists_of_length_succ s h8
  have h9 : s.length = 27 := by simp only [List.length_cons] at h8; omega
  obtain ⟨a9, s, rfl⟩ := List.exists_of_length_succ s h9
  have h10 : s.length = 26 := by simp only [List.length_cons] at h9; omega
  obtain ⟨a10, s, rfl⟩ := List.exists_of_length_succ s h10
  have h11 : s.length = 25 := by simp only [List.length_cons] at h10; omega
  obtain ⟨a11, s, rfl⟩ := List.exists_of_length_succ s h11
  have h12 : s.length = 24 := by simp only [List.length_cons] at h11; omega
  obtain ⟨a12, s, rfl⟩ := List.exists_of_length_succ s h12
  have h13 : s.length = 23 := by simp only [List.length_cons] at h12; omega
  obtain ⟨a13, s, rfl⟩ := List.exists_of_length_succ s h13
  have h14 : s.length = 22 := by simp only [List.length_cons] at h13; omega
  obtain ⟨a14, s, rfl⟩ := List.exists_of_length_succ s h14
  have h15 : s.length = 21 := by simp only [List.length_cons] at h14; omega
  obtain ⟨a15, s, rfl⟩ := List.exists_of_length_succ s h15
  have h16 : s.length = 20 := by simp only [List.length_cons] at h15; omega
  obtain ⟨a16, s, rfl⟩ := List.exists_of_length_succ s h16
  have h17 : s.length = 19 := by simp only [List.length_cons] at h16; omega
  obtain ⟨a17, s, rfl⟩ := List.exists_of_length_succ s h17
  have h18 : s.length = 18 := by simp only [List.length_cons] at h17; omega
  obtain ⟨a18, s, rfl⟩ := List.exists_of_length_succ s h18
  have h19 : s.length = 17 := by simp only [List.length_cons] at h18; omega
  obtain ⟨a19, s, rfl⟩ := List.exists_of_length_succ s h19
  have h20 : s.length = 16 := by simp only [List.length_cons] at h19; omega
  obtain ⟨a20, s, rfl⟩ := List.exists_of_length_succ s h20
  have h21 : s.length = 15 := by simp only [List.length_cons] at h20; omega
  obtain ⟨a21, s, rfl⟩ := List.exists_of_length_succ s h21
  have h22 : s.length = 14 := by simp only [List.length_cons] at h21; omega
  obtain ⟨a22, s, rfl⟩ := List.exists_of_length_succ s h22
  have h23 : s.length = 13 := by simp only [List.length_cons] at h22; omega
  obtain ⟨a23, s, rfl⟩ := List.exists_of_length_succ s h23
  have h24 : s.length = 12 := by simp only [List.length_cons] at h23; omega
  obtain ⟨a24, s, rfl⟩ := List.exists_of_length_succ s h24
  have h25 : s.length = 11 := by simp only [List.length_cons] at h24; omega
  obtain ⟨a25, s, rfl⟩ := List.exists_of_length_succ s h25
  have h26 : s.length = 10 := by simp only [List.length_cons] at h25; omega
  obtain ⟨a26, s, rfl⟩ := List.exists_of_length_succ s h26
  have h27 : s.length = 9 := by simp only [List.length_cons] at h26; omega
  obtain ⟨a27, s, rfl⟩ := List.exists_of_length_succ s h27
  have h28 : s.length = 8 := by simp only [List.length_cons] at h27; omega
  obtain ⟨a28, s, rfl⟩ := List.exists_of_length_succ s h28
  have h29 : s.length = 7 := by simp only [List.length_cons] at h28; omega
  obtain ⟨a29, s, rfl⟩ := List.exists_of_length_succ s h29
  have h30 : s.length = 6 := by simp only [List.length_cons] at h29; omega
  obtain ⟨a30, s, rfl⟩ := List.exists_of_length_succ s h30
  have h31 : s.length = 5 := by simp only [List.length_cons] at h30; omega
  obtain ⟨a31, s, rfl⟩ := List.exists_of_length_succ s h31
  have h32 : s.length = 4 := by simp only [List.length_cons] at h31; omega
  obtain ⟨a32, s, rfl⟩ := List.exists_of_length_succ s h32
  have h33 : s.length = 3 := by simp only [List.length_cons] at h32; omega
  obtain ⟨a33, s, rfl⟩ := List.exists_of_length_succ s h33
  have h34 : s.length = 2 := by simp only [List.length_cons] at h33; omega
  obtain ⟨a34, s, rfl⟩ := List.exists_of_length_succ s h34
  have h35 : s.length = 1 := by simp only [List.length_cons] at h34; omega
  obtain ⟨a35, s, rfl⟩ := List.exists_of_length_succ s h35
  have h36 : s.length = 0 := by simp only [List.length_cons] at h35; omega
  rw [List.length_eq_zero.mp h36]
  rfl

theorem pd_all_valid (s : List Nat) (ps : List Nat)
    (h : ∀ x ∈ ps, (xtob (s.getD x 0) (s.getD (x + 1) 0)).2 = true) :
    specPartialDecodeAux s ps =
      ps.map (fun x => (xtob (s.getD x 0) (s.getD (x + 1) 0)).1) := by
  induction ps with
  | nil => rfl
  | cons x rest ih =>
    rw [specPartialDecodeAux_cons, if_pos (h x (by simp)), List.map_cons,
      ih (fun y hy => h y (by simp [hy]))]

theorem canonicalRender_explicit (u0 u1 u2 u3 u4 u5 u6 u7 u8 u9 u10 u11 u12 u13 u14 u15 : Nat) :
    canonicalRender [u0, u1, u2, u3, u4, u5, u6, u7, u8, u9, u10, u11, u12, u13, u14, u15] =
      hexByteLower u0 ++ hexByteLower u1 ++ hexByteLower u2 ++ hexByteLower u3 ++ [45] ++ hexByteLower u4 ++ hexByteLower u5 ++ [45] ++ hexByteLower u6 ++ hexByteLower u7 ++ [45] ++ hexByteLower u8 ++ hexByteLower u9 ++ [45] ++ hexByteLower u10 ++ hexByteLower u11 ++ hexByteLower u12 ++ hexByteLower u13 ++ hexByteLower u14 ++ hexByteLower u15 := by
  unfold canonicalRender
  rw [show List.take 4 [u0, u1, u2, u3, u4, u5, u6, u7, u8, u9, u10, u11, u12, u13, u14, u15] = [u0, u1, u2, u3] from rfl]
  rw [show List.drop 4 [u0, u1, u2, u3, u4, u5, u6, u7, u8, u9, u10, u11, u12, u13, u14, u15] = [u4, u5, u6, u7, u8, u9, u10, u11, u12, u13, u14, u15] from rfl]
  rw [show List.drop 6 [u0, u1, u2, u3, u4, u5, u6, u7, u8, u9, u10, u11, u12, u13, u14, u15] = [u6, u7, u8, u9, u10, u11, u12, u13, u14, u15] from rfl]
  rw [show List.drop 8 [u0, u1, u2, u3, u4, u5, u6, u7, u8, u9, u10, u11, u12, u13, u14, u15] = [u8, u9, u10, u11, u12, u13, u14, u15] from rfl]
  rw [show List.drop 10 [u0, u1, u2, u3, u4, u5, u6, u7, u8, u9, u10, u11, u12, u13, u14, u15] = [u10, u11, u12, u13, u14, u15] from rfl]
  rw [show List.take 2 [u4, u5, u6, u7, u8, u9, u10, u11, u12, u13, u14, u15] = [u4, u5] from rfl]
  rw [show List.take 2 [u6, u7, u8, u9, u10, u11, u12, u13, u14, u15] = [u6, u7] from rfl]
  rw [show List.take 2 [u8, u9, u10, u11, u12, u13, u14, u15] = [u8, u9] from rfl]
  simp only [hexLowerBytes, List.map_cons, List.map_nil, List.flatten_cons,
    List.flatten_nil, List.cons_append, List.nil_append, List.append_assoc,
    List.append_nil]


theorem guidFormatOK_iff (s : List Nat) :
    guidFormatOK s = true ↔
      s.length = 36 ∧ s.getD 8 0 = 45 ∧ s.getD 13 0 = 45 ∧ s.getD 18 0 = 45 ∧
        s.getD 23 0 = 45 := by
  unfold guidFormatOK
  simp [Bool.and_eq_true, and_assoc]

theorem guid_roundtrip (s : List Nat) (h : (GUIDBytes s).2 = none) :
    GUIDString s = lowerBytes s := by
  have hf : guidFormatOK s = true := by
    by_cases hf : guidFormatOK s = true
    · exact hf
    · exfalso
      unfold GUIDBytes at h
      rw [if_neg hf] at h
      simp at h
  have heq := GUIDBytes_eq s hf
  have hall : guidAll16 s = true := by
    rw [heq] at h
    by_cases hg : guidAll16 s = true
    · exact hg
    · rw [if_neg hg] at h
      simp at h
  have hpair : ∀ x ∈ guidHexPos, (xtob (s.getD x 0) (s.getD (x + 1) 0)).2 = true := by
    unfold guidAll16 at hall
    exact List.all_eq_true.mp hall
  obtain ⟨hlen, h8, h13, h18, h23⟩ := (guidFormatOK_iff s).mp hf
  unfold GUIDString GUIDCanonical
  rw [heq]
  dsimp only
  unfold specPartialDecode
  rw [pd_all_valid s guidHexPos hpair]
  simp only [guidHexPos, List.map_cons, List.map_nil]
  rw [canonicalRender_explicit]
  rw [xtob_valid _ _ (hpair 0 (by decide))]
  rw [xtob_valid _ _ (hpair 2 (by decide))]
  rw [xtob_valid _ _ (hpair 4 (by decide))]
  rw [xtob_valid _ _ (hpair 6 (by decide))]
  rw [xtob_valid _ _ (hpair 9 (by decide))]
  rw [xtob_valid _ _ (hpair 11 (by decide))]
  rw [xtob_valid _ _ (hpair 14 (by decide))]
  rw [xtob_valid _ _ (hpair 16 (by decide))]
  rw [xtob_valid _ _ (hpair 19 (by decide))]
  rw [xtob_valid _ _ (hpair 21 (by decide))]
  rw [xtob_valid _ _ (hpair 24 (by decide))]
  rw [xtob_valid _ _ (hpair 26 (by decide))]
  rw [xtob_valid _ _ (hpair 28 (by decide))]
  rw [xtob_valid _ _ (hpair 30 (by decide))]
  rw [xtob_valid _ _ (hpair 32 (by decide))]
  rw [xtob_valid _ _ (hpair 34 (by decide))]
  conv_rhs => rw [list36 s hlen]
  simp only [lowerBytes, List.map_cons, List.map_nil]
  rw [h8, h13, h18, h23]
  simp only [show lowerByte 45 = 45 from rfl, List.cons_append, List.nil_append,
    List.append_assoc]

/-- C9. Parsing a valid GUID string and rendering it back yields its ASCII
lowercasing; a wrong length or a missing hyphen at positions 8/13/18/23 is
reported as the "invalid format" failure, while a non-hex byte at any digit
position of a structurally valid string is reported as the distinct
"invalid hex" failure. -/
theorem c9_guid_parse (s : List Nat) :
    ((GUIDBytes s).2 = none → GUIDString s = lowerBytes s) ∧
    (s.length ≠ 36 → (GUIDBytes s).2 = some GuidErr.format) ∧
    (¬(s.getD 8 0 = 45 ∧ s.getD 13 0 = 45 ∧ s.getD 18 0 = 45 ∧ s.getD 23 0 = 45) →
      (GUIDBytes s).2 = some GuidErr.format) ∧
    (guidFormatOK s = true → ∀ p : Nat, p < 36 → p ≠ 8 → p ≠ 13 → p ≠ 18 →
      p ≠ 23 → xvAt (s.getD p 0) = 255 →
      (GUIDBytes s).2 = some GuidErr.hexchar) := by
  refine ⟨guid_roundtrip s, ?_, ?_, ?_⟩
  · intro hlen
    have hne : ¬ guidFormatOK s = true :=
      fun hh => hlen ((guidFormatOK_iff s).mp hh).1
    unfold GUIDBytes
    rw [if_neg hne]
  · intro hhy
    have hne : ¬ guidFormatOK s = true := by
      intro hh
      obtain ⟨-, h8, h13, h18, h23⟩ := (guidFormatOK_iff s).mp hh
      exact hhy ⟨h8, h13, h18, h23⟩
    unfold GUIDBytes
    rw [if_neg hne]
  · intro hf p hp hp8 hp13 hp18 hp23 hbad
    rw [GUIDBytes_eq s hf]
    dsimp only
    simp [List.getD] at hbad
    have hg : guidAll16 s = false := by
      unfold guidAll16
      rw [List.all_eq_false]
      interval_cases p
      all_goals first
        | exact absurd rfl hp8
        | exact absurd rfl hp13
        | exact absurd rfl hp18
        | exact absurd rfl hp23
        | (refine ⟨0, by decide, ?_⟩
           simp [xtob, List.getD, hbad]
           done)
        | (refine ⟨2, by decide, ?_⟩
           simp [xtob, List.getD, hbad]
           done)
        | (refine ⟨4, by decide, ?_⟩
           simp [xtob, List.getD, hbad]
           done)
        | (refine ⟨6, by decide, ?_⟩
           simp [xtob, List.getD, hbad]
           done)
        | (refine ⟨9, by decide, ?_⟩
           simp [xtob, List.getD, hbad]
           done)
        | (refine ⟨11, by decide, ?_⟩
           simp [xtob, List.getD, hbad]
           done)
        | (refine ⟨14, by decide, ?_⟩
           simp [xtob, List.getD, hbad]
           done)
        | (refine ⟨16, by decide, ?_⟩
           simp [xtob, List.getD, hbad]
           done)
        | (refine ⟨19, by decide, ?_⟩
           simp [xtob, List.getD, hbad]
           done)
        | (refine ⟨21, by decide, ?_⟩
           simp [xtob, List.getD, hbad]
           done)
        | (refine ⟨24, by decide, ?_⟩
           simp [xtob, List.getD, hbad]
           done)
        | (refine ⟨26, by decide, ?_⟩
           simp [xtob, List.getD, hbad]
           done)
        | (refine ⟨28, by decide, ?_⟩
           simp [xtob, List.getD, hbad]
           done)
        | (refine ⟨30, by decide, ?_⟩
           simp [xtob, List.getD, hbad]
           done)
        | (refine ⟨32, by decide, ?_⟩
           simp [xtob, List.getD, hbad]
           done)
        | (refine ⟨34, by decide, ?_⟩
           simp [xtob, List.getD, hbad]
           done)
    rw [hg]
    rfl

/-- Witness for C9: a concrete mixed-case valid GUID round-trips to its
lowercasing; a short string and a mis-hyphenated string fail with the
format error; a structurally valid string with a bad hex digit fails with
the hex error. -/
theorem c9_guid_parse_witness :
    GUIDString (utf8Bytes "C19AF04D-2222-3333-4444-555566667777") =
      lowerBytes (utf8Bytes "C19AF04D-2222-3333-4444-555566667777") ∧
    (GUIDBytes (utf8Bytes "abc")).2 = some GuidErr.format ∧
    (GUIDBytes (utf8Bytes "C19AF04D+2222-3333-4444-555566667777")).2 =
      some GuidErr.format ∧
    (GUIDBytes (utf8Bytes "z19AF04D-2222-3333-4444-555566667777")).2 =
      some GuidErr.hexchar :=
  ⟨(c9_guid_parse (utf8Bytes "C19AF04D-2222-3333-4444-555566667777")).1 (by decide),
   (c9_guid_parse (utf8Bytes "abc")).2.1 (by decide),
   (c9_guid_parse (utf8Bytes "C19AF04D+2222-3333-4444-555566667777")).2.2.1 (by decide),
   (c9_guid_parse (utf8Bytes "z19AF04D-2222-3333-4444-555566667777")).2.2.2 (by decide)
     0 (by decide) (by decide) (by decide) (by decide) (by decide) (by decide)⟩

/-- C10. `GUID.String` is total: a structurally invalid string renders as
the all-zero canonical form, and a structurally valid string renders the
partially decoded 16-byte value, discarding any validation error. -/
theorem c10_guid_string_total (s : List Nat) :
    (guidFormatOK s = false → GUIDString s = zeroGuidBytes) ∧
    (guidFormatOK s = true → GUIDString s = canonicalRender (specPartialDecode s)) := by
  constructor
  · intro hf
    unfold GUIDString GUIDCanonical GUIDBytes
    rw [if_neg (by simp [hf])]
    dsimp only
    decide
  · intro hf
    unfold GUIDString GUIDCanonical
    rw [GUIDBytes_eq s hf]

/-- Witness for C10: a structurally invalid input renders all zeros; a
valid-format input with a bad hex digit renders its partial decode. -/
theorem c10_guid_string_total_witness :
    GUIDString (utf8Bytes "abc") = zeroGuidBytes ∧
    GUIDString (utf8Bytes "z19AF04D-2222-3333-4444-555566667777") =
      canonicalRender (specPartialDecode
        (utf8Bytes "z19AF04D-2222-3333-4444-555566667777")) :=
  ⟨(c10_guid_string_total (utf8Bytes "abc")).1 (by decide),
   (c10_guid_string_total (utf8Bytes "z19AF04D-2222-3333-4444-555566667777")).2
     (by decide)⟩


/-- C4. `Decode` errors only on structural/syntax failures: whenever the
structural decode succeeds but the stored checksum mismatches the
recomputed one, `Decode` returns the document with no error and the
validity flag false; and every `Decode` error is a structural-decode
error. -/
theorem c4_decode_validity_without_error (input : List Nat) :
    (∀ b, structDecode input = .ok b → b.checksum ≠ b.CalculateChecksum →
      Decode input = .ok (b, false)) ∧
    (∀ e, Decode input = .error e → structDecode input = .error e) := by
  constructor
  · intro b hb hne
    unfold Decode
    rw [hb]
    dsimp only
    have hf : (b.checksum == b.CalculateChecksum) = false := by
      simp only [beq_eq_false_iff_ne, ne_eq]
      exact hne
    rw [hf]
  · intro e he
    unfold Decode at he
    cases hs : structDecode input with
    | error e2 =>
      rw [hs] at he
      cases he
      rfl
    | ok b =>
      rw [hs] at he
      cases he

/-- Witness for C4: the concrete mismatched document decodes structurally,
its checksum mismatches, and `Decode` returns it with flag false and no
error. -/
theorem c4_decode_validity_without_error_witness :
    structDecode d4bytes = .ok d4doc ∧
    d4doc.checksum ≠ d4doc.CalculateChecksum ∧
    Decode d4bytes = .ok (d4doc, false) :=
  ⟨by decide, by decide,
   (c4_decode_validity_without_error d4bytes).1 d4doc (by decide) (by decide)⟩


/-- C7 (code bug evaluation). Marshaling a node with the zero `date_added`
sentinel fails with the encoder's `unexpected end of JSON input` error
(because `Time.MarshalJSON` returns empty output), instead of emitting
null/absence as the claim states; document encoding fails likewise. A
nonzero timestamp is serialized as the decimal string, and zero optional
timestamps are omitted. -/
theorem c7_zero_timestamp_encoding :
    encodeNode c7zero =
      .error "json: error calling MarshalJSON for type Time: unexpected end of JSON input" ∧
    (encodeBookmarks c7doc).isOk = false ∧
    encodeNode c7url = .ok (.obj [("date_added", .str "5"),
      ("guid", .str "c19af04d-2222-3333-4444-555566667777"), ("id", .str "7"),
      ("name", .str "n"), ("type", .str "url"), ("url", .str "u")]) := by
  refine ⟨by decide, by decide, by decide⟩

set_option maxHeartbeats 4000000 in
/-- C5 (counterexample). The concrete document `cx5doc` encodes
successfully and decodes back to itself, yet the validity flag is false
because its stored checksum mismatches the recomputed one — refuting
`isValid == true` for encode/decode round-trips as claimed. -/
theorem c5_roundtrip_counterexample :
    (encodeBookmarks cx5doc).toOption.map DecodeJV =
      some (.ok (cx5doc, false)) ∧
    cx5doc.checksum ≠ cx5doc.CalculateChecksum := by
  refine ⟨by decide, by decide⟩

/-! ### C5: what an encode/decode round trip preserves -/

theorem ok_bind_eq {ε α β : Type} (a : α) (f : α → Except ε β) :
    (Except.ok a >>= f) = f a := rfl

theorem decBookmarks_obj (fields : List (String × JValue)) :
    decBookmarks (.obj fields) = fields.foldlM decBookmarksField zeroBookmarks := rfl

theorem decBookmarksField_checksum (b0 b1 : Bookmarks) (kv : String × JValue)
    (hk : kv.1 ≠ "checksum") (h : decBookmarksField b0 kv = .ok b1) :
    b1.checksum = b0.checksum := by
  unfold decBookmarksField at h
  rw [if_neg hk] at h
  repeat' split at h
  all_goals
    first
    | exact Except.noConfusion h
    | (injection h with h; subst h; rfl)

theorem foldFields_checksum : ∀ (fields : List (String × JValue)) (b0 b1 : Bookmarks),
    (∀ kv ∈ fields, kv.1 ≠ "checksum") →
    List.foldlM decBookmarksField b0 fields = .ok b1 →
    b1.checksum = b0.checksum := by
  intro fields
  induction fields with
  | nil =>
    intro b0 b1 _ h
    injection h with h
    subst h
    rfl
  | cons kv rest ih =>
    intro b0 b1 hk h
    rw [List.foldlM_cons] at h
    cases hstep : decBookmarksField b0 kv with
    | error e =>
      rw [hstep] at h
      exact Except.noConfusion h
    | ok b2 =>
      rw [hstep, ok_bind_eq] at h
      have h1 := decBookmarksField_checksum b0 b2 kv (hk kv (List.mem_cons_self _ _)) hstep
      have h2 := ih b2 b1 (fun x hx => hk x (List.mem_cons_of_mem _ hx)) h
      rw [h2, h1]

/-- C5 (amended). For every document `d`, if `Encode d` succeeds with JSON
value `j` and decoding `j` succeeds with `(b, isValid)`, then `b`'s stored
checksum equals `d`'s stored checksum, and `isValid` equals the comparison
of `d`'s stored checksum with the checksum recomputed from the decoded
document — it is not necessarily `true`. -/
theorem c5_roundtrip_amended (d : Bookmarks) (j : JValue) (b : Bookmarks) (valid : Bool)
    (henc : encodeBookmarks d = .ok j) (hdec : DecodeJV j = .ok (b, valid)) :
    b.checksum = d.checksum ∧ valid = (d.checksum == b.CalculateChecksum) := by
  unfold encodeBookmarks at henc
  split at henc
  next e h1 => exact Except.noConfusion henc
  next j1 h1 =>
    split at henc
    next e h2 => exact Except.noConfusion henc
    next j2 h2 =>
      split at henc
      next e h3 => exact Except.noConfusion henc
      next j3 h3 =>
        split at henc
        · injection henc with henc
          subst henc
          unfold DecodeJV at hdec
          split at hdec
          next e hb => exact Except.noConfusion hdec
          next b2 hb =>
            injection hdec with hdec
            injection hdec with hb2 hv2
            subst hb2
            subst hv2
            rw [decBookmarks_obj] at hb
            simp only [List.cons_append, List.nil_append, List.append_assoc] at hb
            rw [List.foldlM_cons] at hb
            rw [show decBookmarksField zeroBookmarks ("checksum", JValue.str d.checksum) =
              Except.ok { zeroBookmarks with checksum := d.checksum } from rfl] at hb
            rw [ok_bind_eq] at hb
            have hkeys : ∀ kv ∈ (("roots",
                JValue.obj [("bookmark_bar", j1), ("other", j2), ("synced", j3)]) ::
                ((match d.syncMetadata with
                  | none => []
                  | some [] => []
                  | some bs => [("sync_metadata", JValue.str (String.mk (base64Encode bs)))]) ++
                 (("version", JValue.num (intDecString d.version)) ::
                  ((if d.metaInfo = [] then [] else [("meta_info", encodeSMap d.metaInfo)]) ++
                   (if d.unsyncedMetaInfo = [] then []
                    else [("unsynced_meta_info", encodeSMap d.unsyncedMetaInfo)]))))),
                kv.1 ≠ "checksum" := by
              intro kv hkv
              simp only [List.mem_cons, List.mem_append] at hkv
              rcases hkv with rfl | hM | rfl | hMI | hUMI
              · simp
              · rcases hsm : d.syncMetadata with _ | bs
                · rw [hsm] at hM
                  simp at hM
                · rw [hsm] at hM
                  cases bs with
                  | nil => simp at hM
                  | cons x xs =>
                    simp at hM
                    rw [hM]
                    simp
              · simp
              · by_cases hmi : d.metaInfo = []
                · rw [if_pos hmi] at hMI
                  simp at hMI
                · rw [if_neg hmi] at hMI
                  simp at hMI
                  rw [hMI]
                  simp
              · by_cases humi : d.unsyncedMetaInfo = []
                · rw [if_pos humi] at hUMI
                  simp at hUMI
                · rw [if_neg humi] at hUMI
                  simp at hUMI
                  rw [hUMI]
                  simp
            have hcs := foldFields_checksum _ _ _ hkeys hb
            have hcs2 : b2.checksum = d.checksum := hcs
            exact ⟨hcs2, by rw [hcs2]⟩
        · exact Except.noConfusion henc

set_option maxHeartbeats 16000000 in
/-- Witness: the round-trip theorem applied at the concrete document
`cx5doc`, whose decode yields the checksum `"beef"` back with the validity
flag false. -/
theorem c5_roundtrip_amended_witness :
    cx5doc.checksum = cx5doc.checksum ∧
      false = (cx5doc.checksum == cx5doc.CalculateChecksum) :=
  c5_roundtrip_amended cx5doc ((encodeBookmarks cx5doc).toOption.getD .null) cx5doc false
    (by decide) (by decide)

/-! ### C8 and C2: concrete carver runs -/

set_option maxHeartbeats 4000000 in
/-- C8. A source that ends right after a full signature match (the 18
signature bytes alone), and even a source that is exactly one complete
checksum-valid bookmarks file, make `Carve` return the `EOF` I/O error
instead of ending the scan successfully: the 1024-byte candidate read
reports `io.EOF` whenever fewer than 1024 bytes remain, and `Carve`
propagates it. -/
theorem c8_eof_after_match :
    Carve s1bytes = .error "EOF" ∧ Carve c2docBytes = .error "EOF" := by
  refine ⟨by decide, by decide⟩

set_option maxHeartbeats 16000000 in
/-- C2 (counterexample). The source `123 :: c2docBytes` contains exactly one
well-formed, checksum-valid document, at offset 1; the scanner consumes the
leading `{` of the document as the second byte of a failed partial match
and never re-examines it, so `Carve` ends with zero sink invocations. -/
theorem c2_scanner_miss :
    Decode c2docBytes = .ok (c2doc, true) ∧
    Carve (123 :: c2docBytes) = .ok [] := by
  refine ⟨by decide, by decide⟩

set_option maxHeartbeats 16000000 in
/-- C2 (amended). A source that is a well-formed checksum-valid document
followed by 1000 filler bytes yields exactly one sink invocation, at
offset 0 with exactly the document's bytes. -/
theorem c2_single_doc_found :
    Carve (c2docBytes ++ fillerBytes) = .ok [(0, c2docBytes)] := by
  decide

/-! ### C3: match spacing -/

theorem scanHdr_mismatch_lt : ∀ (pat rest : List Nat) (off o2 : Nat) (r2 : List Nat),
    scanHdr pat rest off = .mismatch o2 r2 → off < o2 := by
  intro pat
  induction pat with
  | nil =>
    intro rest off o2 r2 h
    simp [scanHdr] at h
  | cons x xs ih =>
    intro rest off o2 r2 h
    cases rest with
    | nil => simp [scanHdr] at h
    | cons c cs =>
      rw [show scanHdr (x :: xs) (c :: cs) off =
        (if c = x then scanHdr xs cs (off + 1) else .mismatch (off + 1) cs) from rfl] at h
      by_cases hc : c = x
      · rw [if_pos hc] at h
        have := ih cs (off + 1) o2 r2 h
        omega
      · rw [if_neg hc] at h
        injection h with h1 h2
        omega

theorem scanHdr_matched_eq : ∀ (pat rest : List Nat) (off p : Nat) (r2 : List Nat),
    scanHdr pat rest off = .matched p r2 → p = off + pat.length := by
  intro pat
  induction pat with
  | nil =>
    intro rest off p r2 h
    rw [show scanHdr [] rest off = .matched off rest from rfl] at h
    injection h with h1 h2
    simp [← h1]
  | cons x xs ih =>
    intro rest off p r2 h
    cases rest with
    | nil => simp [scanHdr] at h
    | cons c cs =>
      rw [show scanHdr (x :: xs) (c :: cs) off =
        (if c = x then scanHdr xs cs (off + 1) else .mismatch (off + 1) cs) from rfl] at h
      by_cases hc : c = x
      · rw [if_pos hc] at h
        have := ih cs (off + 1) p r2 h
        simp only [List.length_cons]
        omega
      · rw [if_neg hc] at h
        exact ScanRes.noConfusion h

theorem carveLoop_spacing : ∀ (fuel : Nat) (rest : List Nat) (off : Nat)
    (acc res : List (Nat × List Nat)),
    carveLoop fuel rest off acc = .ok res →
    List.Chain' (fun a b => a + 18 ≤ b) (acc.map Prod.fst) →
    (∀ a ∈ acc, a.1 + 18 ≤ off) →
    List.Chain' (fun a b => a + 18 ≤ b) (res.map Prod.fst) := by
  intro fuel
  induction fuel with
  | zero =>
    intro rest off acc res h hch _
    injection h with h
    subst h
    exact hch
  | succ fuel ih =>
    intro rest off acc res h hch hoff
    rw [show carveLoop (fuel + 1) rest off acc =
      (match scanHdr s1bytes rest off with
       | .eof => .ok acc
       | .mismatch o2 r2 => carveLoop fuel r2 o2 acc
       | .matched p r2 =>
         if r2.length < 1024 then .error "EOF"
         else if ¬ containsBytes s2bytes (r2.take 1024) then carveLoop fuel r2 p acc
         else
           match jsonParse (s1bytes ++ r2.take 20971520) with
           | none => carveLoop fuel r2 p acc
           | some (_, remain) =>
             let stream := s1bytes ++ r2.take 20971520
             let jb := stream.take (stream.length - remain.length)
             match Decode jb with
             | .error _ => carveLoop fuel r2 p acc
             | .ok (_, valid) =>
               if valid then carveLoop fuel r2 p (acc ++ [(p - 18, jb)])
               else carveLoop fuel r2 p acc) from rfl] at h
    split at h
    · injection h with h
      subst h
      exact hch
    · next o2 r2 heq =>
      have hlt := scanHdr_mismatch_lt _ _ _ _ _ heq
      exact ih r2 o2 acc res h hch (fun a ha => by have := hoff a ha; omega)
    · next p r2 heq =>
      have hp : p = off + 18 := by
        have := scanHdr_matched_eq _ _ _ _ _ heq
        simpa using this
      split at h
      · exact Except.noConfusion h
      · split at h
        · exact ih r2 p acc res h hch (fun a ha => by have := hoff a ha; omega)
        · split at h
          · exact ih r2 p acc res h hch (fun a ha => by have := hoff a ha; omega)
          next v remain heq2 =>
            simp only [] at h
            split at h
            · exact ih r2 p acc res h hch (fun a ha => by have := hoff a ha; omega)
            next doc valid heq3 =>
              split at h
              · refine ih r2 p _ res h ?_ ?_
                · rw [List.map_append]
                  rw [List.chain'_append]
                  refine ⟨hch, List.chain'_singleton _, ?_⟩
                  intro x hx y hy
                  simp only [List.map_cons, List.map_nil, List.head?_cons,
                    Option.mem_def, Option.some.injEq] at hy
                  subst hy
                  have hxmem : x ∈ acc.map Prod.fst := by
                    obtain ⟨hne, hxeq⟩ := List.mem_getLast?_eq_getLast hx
                    rw [hxeq]
                    exact List.getLast_mem hne
                  obtain ⟨a, ha, hax⟩ := List.mem_map.mp hxmem
                  have := hoff a ha
                  omega
                · intro a ha
                  rw [List.mem_append] at ha
                  cases ha with
                  | inl hin => have := hoff a hin; omega
                  | inr hin =>
                    simp only [List.mem_singleton] at hin
                    subst hin
                    simp only []
                    omega
              · exact ih r2 p acc res h hch (fun a ha => by have := hoff a ha; omega)

/-- C3 (amended). For every finite source, when `Carve` ends successfully
the reported offsets are in scan order and any two consecutive reported
offsets are at least the 18-byte signature length apart — scanning resumes
immediately after the just-matched signature (not after the consumed
window), so reported extents can overlap but match starts cannot. -/
theorem c3_match_spacing (src : List Nat) (res : List (Nat × List Nat))
    (h : Carve src = .ok res) :
    List.Chain' (fun a b => a + 18 ≤ b) (res.map Prod.fst) := by
  exact carveLoop_spacing (src.length + 1) src 0 [] res h (by simp) (by simp)

/-- Witness: the spacing theorem applied to a concrete 5-byte source with
no matches. -/
theorem c3_match_spacing_witness :
    List.Chain' (fun a b => a + 18 ≤ b) (([] : List (Nat × List Nat)).map Prod.fst) :=
  c3_match_spacing [104, 101, 108, 108, 111] [] (by decide)

set_option maxHeartbeats 16000000 in
/-- C3 (counterexample). Carving `c3outerBytes ++ fillerBytes` reports two
sink invocations: the outer document at offset 0 with its full 224-byte
extent, and — because scanning resumes right after the 18-byte signature
rather than after the consumed window — a second, overlapping match at
offset 69 inside the outer document's own `meta_info` text, whose 52-byte
extent also decodes as a checksum-valid document. -/
theorem c3_overlap :
    Carve (c3outerBytes ++ fillerBytes) =
      .ok [(0, c3outerBytes), (69, c3innerBytes)] ∧
    c3outerBytes.length = 224 ∧ 69 + c3innerBytes.length ≤ 224 := by
  refine ⟨by decide, by decide, by decide⟩

end crb
